import Mathlib

/-!
Verification of the ToT print-farm order system.

This development shallowly embeds the data model and operations of the
ToT-Order-System repository: the SQLite schema (`schema.sql`,
`product-templates-schema.sql`), the reference-data models (`Color.js`,
`Part.js`, `ProductTemplate.js`) and the admin HTTP routes, together with
the item status workflow engine and the order store, which exist in the
repository only as a specification (the spec's section 4) and are modelled
here from the spec's words.

Tables are embedded as lists of row structures; SQL queries become list
functions; SQL `ORDER BY` becomes an insertion sort; the JS models'
fallible operations return `Except` or pair the new table with the
result value.
-/

namespace ToT

/- ### Generic helpers: byte-wise string comparison and insertion sort
(shallow embedding of SQLite's binary-collation `ORDER BY`). -/

/-- Lexicographic comparison of character lists by code point, the order
SQLite's binary collation gives on the stored text. -/
def charListLe : List Char → List Char → Bool
  | [], _ => true
  | _ :: _, [] => false
  | a :: as, b :: bs =>
    if a.toNat < b.toNat then true
    else if b.toNat < a.toNat then false
    else charListLe as bs

/-- String comparison used to model `ORDER BY <text column> ASC`. -/
def strLe (a b : String) : Bool := charListLe a.data b.data

/-- Comparison on nullable text (SQL `NULL` sorts first). -/
def optStrLe : Option String → Option String → Bool
  | none, _ => true
  | some _, none => false
  | some a, some b => strLe a b

/-- Insert into a sorted list, keeping existing order among ties. -/
def insertSorted {α : Type} (le : α → α → Bool) (a : α) : List α → List α
  | [] => [a]
  | b :: t => if le a b then a :: b :: t else b :: insertSorted le a t

/-- Insertion sort, the model of SQL `ORDER BY`. -/
def sortBy {α : Type} (le : α → α → Bool) : List α → List α
  | [] => []
  | a :: t => insertSorted le a (sortBy le t)

/-- Boolean chain predicate: `r` holds between each pair of neighbours. -/
def chainB {α : Type} (r : α → α → Bool) : List α → Bool
  | [] => true
  | [_] => true
  | a :: b :: t => r a b && chainB r (b :: t)

/-- Boolean no-duplicates predicate on key lists (embeds PRIMARY KEY /
UNIQUE uniqueness of already-stored keys). -/
def nodupB : List Nat → Bool
  | [] => true
  | a :: t => (!(t.any (fun b => a == b))) && nodupB t

/-- Decidable equality of fallible results, so concrete runs of the
embedded operations can be checked by evaluation. -/
instance {ε α : Type} [DecidableEq ε] [DecidableEq α] :
    DecidableEq (Except ε α) := fun x y =>
  match x, y with
  | Except.ok a, Except.ok b =>
    if h : a = b then isTrue (by rw [h])
    else isFalse (fun he => by cases he; exact h rfl)
  | Except.ok _, Except.error _ => isFalse (fun he => by cases he)
  | Except.error _, Except.ok _ => isFalse (fun he => by cases he)
  | Except.error e, Except.error f =>
    if h : e = f then isTrue (by rw [h])
    else isFalse (fun he => by cases he; exact h rfl)

/- ### Item status machinery.

The six states and the CHECK constraint come from `schema.sql` (items
table).  The workflow operations `AdvanceStatus`, `RequestReprint` and
item creation are not implemented in the repository's source; they are
modelled from the spec (sections 4.1 and 6). -/

/-- The fixed status order of `schema.sql` and spec section 4.1:
`In Queue < In Printfarm < Printed < Assembled < Packed < Shipped`. -/
def statusOrder : List String :=
  ["In Queue", "In Printfarm", "Printed", "Assembled", "Packed", "Shipped"]

/-- The items table CHECK constraint of `schema.sql`:
`CHECK(status IN ('In Queue', 'In Printfarm', 'Printed', 'Assembled',
'Packed', 'Shipped'))`. -/
def statusCheck (s : String) : Bool := statusOrder.contains s

/-- Immediate successor in the fixed status order (spec section 4.1). -/
def nextStatus : String → Option String
  | "In Queue" => some ("In Printfarm")
  | "In Printfarm" => some ("Printed")
  | "Printed" => some ("Assembled")
  | "Assembled" => some ("Packed")
  | "Packed" => some ("Shipped")
  | _ => none

/-- Strictly-forward comparison of two statuses, by position in
`statusOrder`. -/
def rankLtB (a b : String) : Bool :=
  match statusOrder.indexOf? a, statusOrder.indexOf? b with
  | some i, some j => decide (i < j)
  | _, _ => false

/-- A status sequence that only ever moves forward in `statusOrder`. -/
def forwardChain (l : List String) : Bool := chainB rankLtB l

/-- A row of the `items` table (`schema.sql`). -/
structure ItemRow where
  item_id : Nat
  product_id : Nat
  item_name : String
  status : String
deriving DecidableEq, Repr

/-- A row of the `status_history` audit table (`schema.sql`). -/
structure HistoryRow where
  item_id : Nat
  old_status : Option String
  new_status : String
  reason : Option String
deriving DecidableEq, Repr

/-- The mutable state the workflow engine acts on: the items table and the
append-only status history, kept in insertion order. -/
structure EngineState where
  items : List ItemRow
  history : List HistoryRow
deriving DecidableEq, Repr

/-- The error taxonomy of spec section 7 (the recoverable kinds the
engine reports). -/
inductive EngineError where
  | InvalidTransition
  | NoOpTransition
  | UnknownPart
  | NotReady
  | NotFound
deriving DecidableEq, Repr

/-- Row lookup by item id. -/
def findItem (s : EngineState) (itemId : Nat) : Option ItemRow :=
  s.items.find? (fun r => r.item_id == itemId)

/-- Status write on one item row, leaving every other row untouched. -/
def setStatus (l : List ItemRow) (itemId : Nat) (st : String) : List ItemRow :=
  l.map (fun r => if r.item_id == itemId then { r with status := st } else r)

/-- Modelled from the spec: `AdvanceStatus(itemId, targetStatus, reason?)`
(section 4.1) — the workflow engine is not present in the repository's
source.  Succeeds only if `targetStatus` is the immediate successor of the
item's current status, updating the status and appending one history row
with the supplied reason (default reason "status advanced"); otherwise it
fails with `InvalidTransition` and writes nothing. -/
def advanceStatus (s : EngineState) (itemId : Nat) (target : String)
    (reason : Option String) : Except EngineError EngineState :=
  match findItem s itemId with
  | none => Except.error EngineError.NotFound
  | some it =>
    if nextStatus it.status = some target then
      Except.ok
        { items := setStatus s.items itemId target,
          history := s.history ++
            [⟨itemId, some it.status, target, some (reason.getD ("status advanced"))⟩] }
    else Except.error EngineError.InvalidTransition

/-- Modelled from the spec: order entry creates every new item at status
`In Queue` with an initial StatusHistory row `(old_status = null,
new_status = In Queue, reason = "created")` (spec section 6) — the order
entry code is not present in the repository's source.  The schema supplies
the default status `'In Queue'`. -/
def createItem (s : EngineState) (itemId productId : Nat) (name : String) :
    EngineState :=
  { items := s.items ++ [⟨itemId, productId, name, "In Queue"⟩],
    history := s.history ++ [⟨itemId, none, "In Queue", some ("created")⟩] }

/-- Modelled from the spec: `RequestReprint` with entire-item scope
(section 4.1) — resets the status to `In Queue` unless it already is
`In Queue` (then `NoOpTransition`), logging one history row with the
caller's reason. -/
def requestReprint (s : EngineState) (itemId : Nat) (reason : String) :
    Except EngineError EngineState :=
  match findItem s itemId with
  | none => Except.error EngineError.NotFound
  | some it =>
    if it.status = "In Queue" then Except.error EngineError.NoOpTransition
    else
      Except.ok
        { items := setStatus s.items itemId ("In Queue"),
          history := s.history ++ [⟨itemId, some it.status, "In Queue", some reason⟩] }

/-- The audit rows recorded for one item, in creation order. -/
def itemHistory (s : EngineState) (itemId : Nat) : List HistoryRow :=
  s.history.filter (fun h => h.item_id == itemId)

/-- The recorded status path of one item: the `new_status` column of its
audit rows in creation order. -/
def histStatuses (s : EngineState) (itemId : Nat) : List String :=
  (itemHistory s itemId).map (fun h => h.new_status)

/-- A sequence of `AdvanceStatus` calls: each call that fails leaves the
state exactly as it was. -/
def applyAdvances (s : EngineState) (calls : List (Nat × String × Option String)) :
    EngineState :=
  calls.foldl
    (fun st c =>
      match advanceStatus st c.1 c.2.1 c.2.2 with
      | Except.ok st' => st'
      | Except.error _ => st) s

/-- Per-item well-formedness pieces: the stored status passes the schema
CHECK, the last audit row matches the stored status, and the first audit
row is the creation row. -/
def lastLink (s : EngineState) (r : ItemRow) : Bool :=
  decide ((histStatuses s r.item_id).getLast? = some r.status)

/-- The first audit row of an item is its creation row. -/
def headInit (s : EngineState) (r : ItemRow) : Bool :=
  decide ((itemHistory s r.item_id).head? =
    some ⟨r.item_id, none, "In Queue", some ("created")⟩)

/-- Every audit row belongs to a stored item. -/
def histOwned (s : EngineState) : Bool :=
  s.history.all (fun h => s.items.any (fun r => r.item_id == h.item_id))

/-- State well-formedness maintained by every engine operation: item ids
are unique (PRIMARY KEY), audit rows belong to items, and each item's
status passes the CHECK, agrees with its last audit row, and its first
audit row is the creation row. -/
def invB (s : EngineState) : Bool :=
  nodupB (s.items.map (fun r => r.item_id)) && histOwned s &&
    s.items.all (fun r => statusCheck r.status && lastLink s r && headInit s r)

/-- Every item's recorded status path is strictly forward in
`statusOrder`.  This holds as long as only `AdvanceStatus` and creation
have acted on the state (reprints break it by design). -/
def wfForward (s : EngineState) : Bool :=
  s.items.all (fun r => forwardChain (histStatuses s r.item_id))

/-- States reachable through the engine's operations, starting from the
empty store: item creation (with a fresh primary key), successful
`AdvanceStatus` calls and successful entire-item reprints. -/
inductive Reach : EngineState → Prop where
  | empty : Reach ⟨[], []⟩
  | create {s : EngineState} (itemId productId : Nat) (name : String) :
      Reach s → s.items.all (fun r => !(r.item_id == itemId)) = true →
      Reach (createItem s itemId productId name)
  | advance {s s' : EngineState} (itemId : Nat) (target : String)
      (reason : Option String) :
      Reach s → advanceStatus s itemId target reason = Except.ok s' → Reach s'
  | reprint {s s' : EngineState} (itemId : Nat) (reason : String) :
      Reach s → requestReprint s itemId reason = Except.ok s' → Reach s'

/- ### Orders: order-number generation and the orders table.

The orders table, its UNIQUE order_number and its platform CHECK come from
`schema.sql`.  The Order model (creation, number generation) is not
implemented in the repository's source; the generation rule is modelled
from the spec (section 4.2). -/

/-- Decimal digit value of a character, `none` for a non-digit. -/
def digitVal (c : Char) : Option Nat :=
  if c.isDigit then some (c.toNat - ('0').toNat) else none

/-- One step of decimal parsing: extend the accumulated value by one
digit, failing on a non-digit. -/
def parseFold (acc : Option Nat) (c : Char) : Option Nat :=
  match acc, digitVal c with
  | some n, some d => some (n * 10 + d)
  | _, _ => none

/-- Modelled from the spec: an order number "parses as an integer" when it
is a non-empty string of decimal digits (so "001" parses to 1 and
"CUSTOM-1" does not parse); the Order model is not present in the
repository's source. -/
def parseOrderNumber (s : String) : Option Nat :=
  if s.data.isEmpty then none else s.data.foldl parseFold (some 0)

/-- Numeric maximum of the existing order numbers that parse as integers,
0 when there are none. -/
def numericMax (existing : List String) : Nat :=
  (existing.filterMap parseOrderNumber).foldl Nat.max 0

/-- Decimal digit character for a value below ten. -/
def digitChar : Nat → Char
  | 0 => '0'
  | 1 => '1'
  | 2 => '2'
  | 3 => '3'
  | 4 => '4'
  | 5 => '5'
  | 6 => '6'
  | 7 => '7'
  | 8 => '8'
  | _ => '9'

/-- Decimal rendering with explicit fuel (any fuel above the value works;
structural recursion keeps the definition computable by the kernel). -/
def renderAux : Nat → Nat → List Char
  | 0, _ => []
  | fuel + 1, n =>
    if n < 10 then [digitChar n]
    else renderAux fuel (n / 10) ++ [digitChar (n % 10)]

/-- Unpadded decimal numeral of a number. -/
def renderNum (n : Nat) : List Char := renderAux (n + 1) n

/-- Modelled from the spec (section 4.2): the next auto-generated order
number is (numeric max of the existing order numbers that parse as
integers) + 1, starting at 1 with no numeric orders, zero-padded to three
digits until the value exceeds 999, after which padding stops. -/
def generateOrderNumber (existing : List String) : String :=
  ⟨if (renderNum (numericMax existing + 1)).length < 3 then
      List.replicate (3 - (renderNum (numericMax existing + 1)).length) '0' ++
        renderNum (numericMax existing + 1)
    else renderNum (numericMax existing + 1)⟩

/-- A row of the `orders` table (`schema.sql`). -/
structure OrderRow where
  order_id : Nat
  order_number : String
  customer_name : String
  platform : String
  order_notes : Option String
  ship_by_date : String
  is_express : Bool
  is_archived : Bool
  shipped_at : Option String
deriving DecidableEq, Repr

/-- Storage-boundary errors of the orders table (`schema.sql`): the UNIQUE
constraint on order_number and the CHECK constraint on platform. -/
inductive OrdersError where
  | DuplicateKey
  | CheckViolation
deriving DecidableEq, Repr

/-- The orders table CHECK constraint of `schema.sql`:
`CHECK(platform IN ('Shopify', 'Etsy', 'Custom Order'))`. -/
def platformCheck (p : String) : Bool :=
  p == "Shopify" || p == "Etsy" || p == "Custom Order"

/-- The platform enumeration named by the spec; `CustomOrder` is stored as
the text 'Custom Order'. -/
inductive Platform where
  | Shopify
  | Etsy
  | CustomOrder
deriving DecidableEq, Repr

/-- Stored text of each platform value (`schema.sql` CHECK list). -/
def Platform.toDb : Platform → String
  | Platform.Shopify => "Shopify"
  | Platform.Etsy => "Etsy"
  | Platform.CustomOrder => "Custom Order"

/-- Insert into the orders table, enforcing the platform CHECK and the
order_number UNIQUE constraints of `schema.sql` (constraint checks run
before the row is stored; on failure nothing is stored). -/
def insertOrder (tbl : List OrderRow) (row : OrderRow) :
    Except OrdersError (List OrderRow) :=
  if !(platformCheck row.platform) then Except.error OrdersError.CheckViolation
  else if tbl.any (fun r => r.order_number == row.order_number) then
    Except.error OrdersError.DuplicateKey
  else Except.ok (tbl ++ [row])

/-- Update of one order's platform column; SQLite re-checks the CHECK
constraint on UPDATE. -/
def updateOrderPlatform (tbl : List OrderRow) (orderId : Nat) (p : String) :
    Except OrdersError (List OrderRow) :=
  if !(platformCheck p) then Except.error OrdersError.CheckViolation
  else
    Except.ok
      (tbl.map (fun r => if r.order_id == orderId then { r with platform := p } else r))

/-- Orders-table states reachable through inserts and platform updates. -/
inductive ReachOrders : List OrderRow → Prop where
  | empty : ReachOrders []
  | insert {tbl tbl' : List OrderRow} (row : OrderRow) :
      ReachOrders tbl → insertOrder tbl row = Except.ok tbl' → ReachOrders tbl'
  | updatePlat {tbl tbl' : List OrderRow} (orderId : Nat) (p : String) :
      ReachOrders tbl → updateOrderPlatform tbl orderId p = Except.ok tbl' →
      ReachOrders tbl'

/- ### Colors and parts (`Color.js`, `Part.js`, `schema.sql`). -/

/-- A row of the `colors` table (`schema.sql`).  DECIMAL money/stock
amounts are carried as integers of their smallest unit; nothing in the
verified behaviour computes with them. -/
structure ColorRow where
  color_id : Nat
  color_name : String
  hex_code : String
  pantone_code : Option String
  material_type : Option String
  supplier : Option String
  category : Option String
  cost_per_gram : Int
  stock_grams : Int
  is_active : Bool
deriving DecidableEq, Repr

/-- Input of `Color.create` / `Color.update` (`Color.js`): the admin route
has already validated that color_name and hex_code are present; the
remaining fields default like the JS `|| null` / `|| 0` expressions. -/
structure ColorData where
  color_name : String
  hex_code : String
  pantone_code : Option String
  material_type : Option String
  supplier : Option String
  category : Option String
  cost_per_gram : Option Int
  stock_grams : Option Int
deriving DecidableEq, Repr

/-- Uniqueness violation reported by the storage layer and surfaced by the
admin routes as HTTP 409. -/
inductive AdminError where
  | DuplicateKey
deriving DecidableEq, Repr

/-- AUTOINCREMENT primary key for the colors table: one above the largest
stored id. -/
def nextColorId (tbl : List ColorRow) : Nat :=
  (tbl.map (fun r => r.color_id)).foldl Nat.max 0 + 1

/-- `Color.getById` (`Color.js`): `SELECT * FROM colors WHERE color_id = ?`. -/
def Color.getById (tbl : List ColorRow) (colorId : Nat) : Option ColorRow :=
  tbl.find? (fun r => r.color_id == colorId)

/-- `Color.create` (`Color.js`): INSERT with `is_active = 1`, rejected by
the UNIQUE constraint on color_name (`schema.sql`); on success the model
returns the stored row, as `getById(lastInsertRowid)` does. -/
def Color.create (tbl : List ColorRow) (d : ColorData) :
    List ColorRow × Except AdminError ColorRow :=
  if tbl.any (fun r => r.color_name == d.color_name) then
    (tbl, Except.error AdminError.DuplicateKey)
  else
    let row : ColorRow :=
      ⟨nextColorId tbl, d.color_name, d.hex_code, d.pantone_code, d.material_type,
        d.supplier, d.category, d.cost_per_gram.getD 0, d.stock_grams.getD 0, true⟩
    (tbl ++ [row], Except.ok row)

/-- `Color.update` (`Color.js`): rewrites every data column of the matched
row (never is_active) and returns the updated row, `none` when no row
matched. -/
def Color.update (tbl : List ColorRow) (colorId : Nat) (d : ColorData) :
    List ColorRow × Option ColorRow :=
  if tbl.any (fun r => r.color_id == colorId) then
    let tbl' := tbl.map (fun r =>
      if r.color_id == colorId then
        { r with
          color_name := d.color_name, hex_code := d.hex_code,
          pantone_code := d.pantone_code, material_type := d.material_type,
          supplier := d.supplier, category := d.category,
          cost_per_gram := d.cost_per_gram.getD 0,
          stock_grams := d.stock_grams.getD 0 }
      else r)
    (tbl', Color.getById tbl' colorId)
  else (tbl, none)

/-- `Color.deactivate` (`Color.js`): `UPDATE colors SET is_active = 0
WHERE color_id = ?`, reporting whether a row matched.  No trigger touches
the colors table, so no other column changes. -/
def Color.deactivate (tbl : List ColorRow) (colorId : Nat) :
    List ColorRow × Bool :=
  if tbl.any (fun r => r.color_id == colorId) then
    (tbl.map (fun r =>
      if r.color_id == colorId then { r with is_active := false } else r), true)
  else (tbl, false)

/-- `Color.activate` (`Color.js`): `UPDATE colors SET is_active = 1
WHERE color_id = ?`. -/
def Color.activate (tbl : List ColorRow) (colorId : Nat) :
    List ColorRow × Bool :=
  if tbl.any (fun r => r.color_id == colorId) then
    (tbl.map (fun r =>
      if r.color_id == colorId then { r with is_active := true } else r), true)
  else (tbl, false)

/-- `Color.getAll` (`Color.js`): all colors, or only active ones, ordered
by color_name ascending. -/
def Color.getAll (tbl : List ColorRow) (includeInactive : Bool) : List ColorRow :=
  sortBy (fun a b => strLe a.color_name b.color_name)
    (if includeInactive then tbl else tbl.filter (fun r => r.is_active))

/-- A row of the `parts` table (`schema.sql`); part_code is nullable. -/
structure PartRow where
  part_id : Nat
  part_code : Option String
  part_name : String
  description : Option String
  is_active : Bool
deriving DecidableEq, Repr

/-- Input of `Part.create` / `Part.update` (`Part.js`). -/
structure PartData where
  part_code : Option String
  part_name : String
  description : Option String
deriving DecidableEq, Repr

/-- AUTOINCREMENT primary key for the parts table. -/
def nextPartId (tbl : List PartRow) : Nat :=
  (tbl.map (fun r => r.part_id)).foldl Nat.max 0 + 1

/-- `Part.getById` (`Part.js`). -/
def Part.getById (tbl : List PartRow) (partId : Nat) : Option PartRow :=
  tbl.find? (fun r => r.part_id == partId)

/-- `Part.create` (`Part.js`): INSERT with `is_active = 1`, rejected by the
UNIQUE constraints on part_code / part_name (`schema.sql`). -/
def Part.create (tbl : List PartRow) (d : PartData) :
    List PartRow × Except AdminError PartRow :=
  if tbl.any (fun r =>
      r.part_name == d.part_name ||
        (r.part_code.isSome && r.part_code == d.part_code)) then
    (tbl, Except.error AdminError.DuplicateKey)
  else
    let row : PartRow := ⟨nextPartId tbl, d.part_code, d.part_name, d.description, true⟩
    (tbl ++ [row], Except.ok row)

/-- `Part.update` (`Part.js`): rewrites the data columns of the matched
row (never is_active). -/
def Part.update (tbl : List PartRow) (partId : Nat) (d : PartData) :
    List PartRow × Option PartRow :=
  if tbl.any (fun r => r.part_id == partId) then
    let tbl' := tbl.map (fun r =>
      if r.part_id == partId then
        { r with part_code := d.part_code, part_name := d.part_name,
                 description := d.description }
      else r)
    (tbl', Part.getById tbl' partId)
  else (tbl, none)

/-- `Part.deactivate` (`Part.js`): `UPDATE parts SET is_active = 0
WHERE part_id = ?`. -/
def Part.deactivate (tbl : List PartRow) (partId : Nat) :
    List PartRow × Bool :=
  if tbl.any (fun r => r.part_id == partId) then
    (tbl.map (fun r =>
      if r.part_id == partId then { r with is_active := false } else r), true)
  else (tbl, false)

/-- `Part.activate` (`Part.js`): `UPDATE parts SET is_active = 1
WHERE part_id = ?`. -/
def Part.activate (tbl : List PartRow) (partId : Nat) :
    List PartRow × Bool :=
  if tbl.any (fun r => r.part_id == partId) then
    (tbl.map (fun r =>
      if r.part_id == partId then { r with is_active := true } else r), true)
  else (tbl, false)

/-- `Part.getAll` (`Part.js`): all parts, or only active ones, ordered by
part_name ascending. -/
def Part.getAll (tbl : List PartRow) (includeInactive : Bool) : List PartRow :=
  sortBy (fun a b => strLe a.part_name b.part_name)
    (if includeInactive then tbl else tbl.filter (fun r => r.is_active))

/- ### Product templates (`ProductTemplate.js`,
`product-templates-schema.sql`). -/

/-- A row of the `product_templates` table. -/
structure TemplateRow where
  template_id : Nat
  template_name : String
  description : Option String
  num_colors : Int
  print_time_minutes : Int
  print_cost : Int
  is_active : Bool
deriving DecidableEq, Repr

/-- A row of the `template_parts` junction table. -/
structure TemplatePartRow where
  template_id : Nat
  part_id : Nat
  quantity : Int
deriving DecidableEq, Repr

/-- The three tables `ProductTemplate.js` touches. -/
structure PTState where
  parts : List PartRow
  templates : List TemplateRow
  template_parts : List TemplatePartRow
deriving DecidableEq, Repr

/-- Input of `ProductTemplate.create`: optional fields mirror the JS
object, where a missing field is `none` (and JS falsiness of `""` and `0`
is handled by the operations). -/
structure TemplateData where
  template_name : Option String
  description : Option String
  num_colors : Option Int
  print_time_minutes : Option Int
  print_cost : Option Int
  parts : List (Nat × Option Int)
deriving DecidableEq, Repr

/-- Failures of the template operations: the JS validation throws, the
UNIQUE constraint on template_name rejects duplicates (HTTP 409), and
enabled foreign keys reject unknown ids. -/
inductive PTError where
  | Validation (msg : String)
  | DuplicateKey
  | FKViolation
deriving DecidableEq, Repr

/-- JS falsiness of the template_name field: missing or empty string. -/
def tnameFalsy : Option String → Bool
  | none => true
  | some s => s.isEmpty

/-- The JS validation `!num_colors || num_colors < 1 || num_colors > 4`. -/
def ncBad : Option Int → Bool
  | none => true
  | some n => n == 0 || n < 1 || n > 4

/-- The JS default `part.quantity || 1`: a missing or zero quantity
becomes 1. -/
def qtyOf : Option Int → Int
  | none => 1
  | some v => if v == 0 then 1 else v

/-- AUTOINCREMENT primary key for the product_templates table. -/
def nextTemplateId (st : PTState) : Nat :=
  (st.templates.map (fun t => t.template_id)).foldl Nat.max 0 + 1

/-- `ProductTemplate.create` (`ProductTemplate.js`): validates
template_name and num_colors, then inserts the template row and all part
rows in one transaction; any constraint failure (duplicate template_name,
unknown part id, repeated part id) rolls the whole transaction back.  On
success returns the created template row. -/
def ProductTemplate.create (st : PTState) (d : TemplateData) :
    PTState × Except PTError TemplateRow :=
  if tnameFalsy d.template_name then
    (st, Except.error (PTError.Validation ("template_name is required")))
  else if ncBad d.num_colors then
    (st, Except.error (PTError.Validation ("num_colors must be between 1 and 4")))
  else
    let name := d.template_name.getD ("")
    if st.templates.any (fun t => t.template_name == name) then
      (st, Except.error PTError.DuplicateKey)
    else if d.parts.any (fun pq => !(st.parts.any (fun p => p.part_id == pq.1))) then
      (st, Except.error PTError.FKViolation)
    else if !(nodupB (d.parts.map Prod.fst)) then
      (st, Except.error PTError.DuplicateKey)
    else
      let tid := nextTemplateId st
      let row : TemplateRow :=
        ⟨tid, name, d.description, d.num_colors.getD 0,
          d.print_time_minutes.getD 0, d.print_cost.getD 0, true⟩
      ({ st with
          templates := st.templates ++ [row],
          template_parts :=
            st.template_parts ++
              d.parts.map (fun pq => ⟨tid, pq.1, qtyOf pq.2⟩) },
        Except.ok row)

/-- `ProductTemplate.addPart` (`ProductTemplate.js`): INSERT with
`ON CONFLICT(template_id, part_id) DO UPDATE SET quantity =
excluded.quantity`.  Enabled foreign keys require the template and the
part to exist; the source checks nothing else — in particular not the
part's is_active flag. -/
def ProductTemplate.addPart (st : PTState) (templateId partId : Nat)
    (quantity : Int) : PTState × Except PTError Bool :=
  if !(st.templates.any (fun t => t.template_id == templateId)) then
    (st, Except.error PTError.FKViolation)
  else if !(st.parts.any (fun p => p.part_id == partId)) then
    (st, Except.error PTError.FKViolation)
  else if st.template_parts.any
      (fun tp => tp.template_id == templateId && tp.part_id == partId) then
    ({ st with
        template_parts := st.template_parts.map (fun tp =>
          if tp.template_id == templateId && tp.part_id == partId then
            { tp with quantity := quantity }
          else tp) },
      Except.ok true)
  else
    ({ st with
        template_parts := st.template_parts ++ [⟨templateId, partId, quantity⟩] },
      Except.ok true)

/-- The template_parts rows of one template, in stored order. -/
def tpRows (st : PTState) (templateId : Nat) : List TemplatePartRow :=
  st.template_parts.filter (fun tp => tp.template_id == templateId)

/-- Part lookup inside the template queries. -/
def findPart (st : PTState) (partId : Nat) : Option PartRow :=
  st.parts.find? (fun p => p.part_id == partId)

/-- One parsed entry of a template's parts list, as the admin API returns
it: every field nullable, because `getAll` can produce a JSON object whose
fields are all null. -/
structure TPEntry where
  part_id : Option Nat
  part_code : Option String
  part_name : Option String
  quantity : Option Int
deriving DecidableEq, Repr

/-- The parts list `ProductTemplate.getAll` produces for one template:
LEFT JOIN of template_parts and parts, `GROUP_CONCAT` of per-row
`json_object` strings, wrapped in brackets and parsed by the JS.  With no
template_parts rows the LEFT JOIN still yields one all-NULL row, whose
`json_object` is a non-null string, so the parsed list holds one all-null
entry rather than being empty. -/
def ProductTemplate.getAllParts (st : PTState) (templateId : Nat) :
    List TPEntry :=
  let rows := (tpRows st templateId).map (fun tp =>
    match findPart st tp.part_id with
    | some p => ⟨some p.part_id, p.part_code, some p.part_name, some tp.quantity⟩
    | none => ⟨none, none, none, some tp.quantity⟩)
  match rows with
  | [] => [⟨none, none, none, none⟩]
  | _ => rows

/-- The parts list `ProductTemplate.getById` returns for one template: a
plain INNER JOIN of template_parts and parts, ordered by part_name. -/
def ProductTemplate.getByIdParts (st : PTState) (templateId : Nat) :
    List TPEntry :=
  sortBy (fun a b => optStrLe a.part_name b.part_name)
    ((tpRows st templateId).filterMap (fun tp =>
      (findPart st tp.part_id).map (fun p =>
        ⟨some p.part_id, p.part_code, some p.part_name, some tp.quantity⟩)))

/- ### Helper lemmas about the generic list machinery. -/

theorem insertSorted_perm {α : Type} (le : α → α → Bool) (a : α) (l : List α) :
    (insertSorted le a l).Perm (a :: l) := by
  induction l with
  | nil => exact List.Perm.refl _
  | cons b t ih =>
    simp only [insertSorted]
    split
    · exact List.Perm.refl _
    · exact (ih.cons b).trans (List.Perm.swap a b t)

theorem sortBy_perm {α : Type} (le : α → α → Bool) (l : List α) :
    (sortBy le l).Perm l := by
  induction l with
  | nil => exact List.Perm.refl _
  | cons a t ih => exact (insertSorted_perm le a (sortBy le t)).trans (ih.cons a)

theorem mem_sortBy {α : Type} (le : α → α → Bool) (l : List α) (x : α) :
    x ∈ sortBy le l ↔ x ∈ l :=
  (sortBy_perm le l).mem_iff

theorem chainB_cons {α : Type} (r : α → α → Bool) (a : α) (l : List α) :
    chainB r (a :: l) = true ↔
      (∀ b, l.head? = some b → r a b = true) ∧ chainB r l = true := by
  cases l with
  | nil => simp [chainB]
  | cons b t => simp [chainB, and_comm]

theorem chainB_insertSorted {α : Type} (r : α → α → Bool)
    (htot : ∀ a b, r a b = true ∨ r b a = true) (a : α) (l : List α)
    (h : chainB r l = true) : chainB r (insertSorted r a l) = true := by
  induction l with
  | nil => simp [insertSorted, chainB]
  | cons b t ih =>
    simp only [insertSorted]
    split
    · next hab => simp [chainB, hab, h]
    · next hab =>
      have hba : r b a = true := by
        rcases htot a b with h1 | h1
        · exact absurd h1 hab
        · exact h1
      have hbt : chainB r t = true := ((chainB_cons r b t).mp h).2
      have hhead : ∀ c, t.head? = some c → r b c = true :=
        ((chainB_cons r b t).mp h).1
      refine (chainB_cons r b (insertSorted r a t)).mpr ⟨?_, ih hbt⟩
      intro c hc
      cases t with
      | nil =>
        simp [insertSorted] at hc
        rw [← hc]; exact hba
      | cons d t2 =>
        simp only [insertSorted] at hc
        by_cases had : r a d = true
        · rw [if_pos had] at hc
          simp at hc
          rw [← hc]; exact hba
        · rw [if_neg had] at hc
          simp at hc
          rw [← hc]; exact hhead d rfl

theorem chainB_sortBy {α : Type} (r : α → α → Bool)
    (htot : ∀ a b, r a b = true ∨ r b a = true) (l : List α) :
    chainB r (sortBy r l) = true := by
  induction l with
  | nil => rfl
  | cons a t ih => exact chainB_insertSorted r htot a (sortBy r t) ih

theorem chainB_snoc {α : Type} (r : α → α → Bool) (l : List α) (b : α) :
    chainB r (l ++ [b]) = true ↔
      chainB r l = true ∧ ∀ a, l.getLast? = some a → r a b = true := by
  induction l with
  | nil => simp [chainB]
  | cons x t ih =>
    cases t with
    | nil => simp [chainB]
    | cons y t2 =>
      simp only [List.cons_append, List.append_eq, chainB, Bool.and_eq_true] at ih ⊢
      rw [ih]
      simp only [List.getLast?_cons_cons]
      tauto

theorem charListLe_total (a : List Char) : ∀ b, charListLe a b = true ∨ charListLe b a = true := by
  induction a with
  | nil => intro b; left; rfl
  | cons x xs ih =>
    intro b
    cases b with
    | nil => right; rfl
    | cons y ys =>
      simp only [charListLe]
      rcases Nat.lt_trichotomy x.toNat y.toNat with h | h | h
      · left; simp [h]
      · have h1 : ¬(x.toNat < y.toNat) := by omega
        have h2 : ¬(y.toNat < x.toNat) := by omega
        simp only [if_neg h1, if_neg h2]
        exact ih ys
      · right; simp [h]

theorem strLe_total (a b : String) : strLe a b = true ∨ strLe b a = true :=
  charListLe_total a.data b.data

theorem optStrLe_total (a b : Option String) :
    optStrLe a b = true ∨ optStrLe b a = true := by
  cases a with
  | none => left; rfl
  | some x =>
    cases b with
    | none => right; rfl
    | some y => exact strLe_total x y

theorem nodupB_iff (l : List Nat) : nodupB l = true ↔ l.Nodup := by
  induction l with
  | nil => simp [nodupB]
  | cons x t ih =>
    simp only [nodupB, Bool.and_eq_true, Bool.not_eq_true', List.any_eq_false,
      beq_iff_eq, List.nodup_cons, ih]
    constructor
    · rintro ⟨h1, h2⟩
      exact ⟨fun hm => h1 x hm rfl, h2⟩
    · rintro ⟨h1, h2⟩
      refine ⟨?_, h2⟩
      intro b hb he
      subst he
      exact h1 hb

theorem nodupB_snoc (l : List Nat) (a : Nat) :
    nodupB (l ++ [a]) = true ↔ nodupB l = true ∧ a ∉ l := by
  rw [nodupB_iff, nodupB_iff, List.nodup_append]
  simp [List.disjoint_singleton]

theorem eq_of_key_nodup {α : Type} (key : α → Nat) {l : List α} {a b : α}
    (hnd : nodupB (l.map key) = true) (ha : a ∈ l) (hb : b ∈ l)
    (hk : key a = key b) : a = b := by
  induction l with
  | nil => cases ha
  | cons x t ih =>
    simp only [List.map_cons, nodupB, Bool.and_eq_true, Bool.not_eq_true',
      List.any_eq_false, beq_iff_eq] at hnd
    rcases List.mem_cons.mp ha with h1 | h1 <;> rcases List.mem_cons.mp hb with h2 | h2
    · rw [h1, h2]
    · exfalso
      exact hnd.1 (key b) (List.mem_map_of_mem key h2) (h1 ▸ hk)
    · exfalso
      exact hnd.1 (key a) (List.mem_map_of_mem key h1) (h2 ▸ hk.symm)
    · exact ih hnd.2 h1 h2

theorem find?_key_of_mem {α : Type} (key : α → Nat) {l : List α} {r : α} (k : Nat)
    (hnd : nodupB (l.map key) = true) (hm : r ∈ l) (hk : key r = k) :
    l.find? (fun x => key x == k) = some r := by
  induction l with
  | nil => cases hm
  | cons x t ih =>
    simp only [List.map_cons, nodupB, Bool.and_eq_true, Bool.not_eq_true',
      List.any_eq_false, beq_iff_eq] at hnd
    rcases List.mem_cons.mp hm with h1 | h1
    · subst h1
      exact List.find?_cons_of_pos _ (by simp [hk])
    · have hne : ¬((key x == k) = true) := by
        simp only [beq_iff_eq]
        intro he
        exact hnd.1 (key r) (List.mem_map_of_mem key h1) (by rw [he, hk])
      rw [List.find?_cons_of_neg (p := fun y => key y == k) t hne]
      exact ih hnd.2 h1

theorem foldl_max_le_init (l : List Nat) (a : Nat) : a ≤ l.foldl Nat.max a := by
  induction l generalizing a with
  | nil => exact le_refl a
  | cons x t ih => exact le_trans (Nat.le_max_left a x) (ih (Nat.max a x))

theorem mem_le_foldl_max (l : List Nat) : ∀ a, ∀ x ∈ l, x ≤ l.foldl Nat.max a := by
  induction l with
  | nil => intro a x hx; cases hx
  | cons y t ih =>
    intro a x hx
    rcases List.mem_cons.mp hx with h | h
    · subst h
      exact le_trans (Nat.le_max_right a x) (foldl_max_le_init t (Nat.max a x))
    · exact ih (Nat.max a y) x h

/- ### Lemmas about the status machinery. -/

theorem nextStatus_rankLt (a b : String) (h : nextStatus a = some b) :
    rankLtB a b = true := by
  unfold nextStatus at h
  split at h <;>
    first
    | (injection h with h2; subst h2; decide)
    | (simp at h)

theorem nextStatus_statusCheck (a b : String) (h : nextStatus a = some b) :
    statusCheck a = true ∧ statusCheck b = true := by
  unfold nextStatus at h
  split at h <;>
    first
    | (injection h with h2; subst h2; decide)
    | (simp at h)

theorem setStatus_item_id (r : ItemRow) (itemId : Nat) (st : String) :
    (if r.item_id == itemId then { r with status := st } else r).item_id =
      r.item_id := by
  split <;> rfl

theorem setStatus_map_id (l : List ItemRow) (itemId : Nat) (st : String) :
    (setStatus l itemId st).map (fun r => r.item_id) =
      l.map (fun r => r.item_id) := by
  unfold setStatus
  rw [List.map_map]
  apply List.map_congr_left
  intro r _
  simp only [Function.comp_apply]
  exact setStatus_item_id r itemId st

theorem setStatus_any_id (l : List ItemRow) (itemId : Nat) (st : String) (k : Nat) :
    (setStatus l itemId st).any (fun r => r.item_id == k) =
      l.any (fun r => r.item_id == k) := by
  unfold setStatus
  rw [List.any_map]
  congr 1
  funext r
  simp only [Function.comp_apply]
  rw [setStatus_item_id]

theorem itemHistory_snoc (items : List ItemRow) (history : List HistoryRow)
    (h : HistoryRow) (k : Nat) :
    itemHistory ⟨items, history ++ [h]⟩ k =
      itemHistory ⟨items, history⟩ k ++ (if h.item_id == k then [h] else []) := by
  unfold itemHistory
  simp only [List.filter_append]
  congr 1
  simp only [List.filter]
  cases h.item_id == k <;> rfl

theorem itemHistory_irrel (items : List ItemRow) (s : EngineState) (k : Nat) :
    itemHistory ⟨items, s.history⟩ k = itemHistory s k := rfl

theorem histStatuses_snoc (items : List ItemRow) (s : EngineState)
    (row : HistoryRow) (k : Nat) :
    histStatuses ⟨items, s.history ++ [row]⟩ k =
      histStatuses s k ++ (if row.item_id == k then [row.new_status] else []) := by
  unfold histStatuses
  rw [itemHistory_snoc, itemHistory_irrel, List.map_append]
  congr 1
  cases row.item_id == k <;> rfl

theorem findItem_any {s : EngineState} {itemId : Nat} {it : ItemRow}
    (h : findItem s itemId = some it) :
    s.items.any (fun r => r.item_id == itemId) = true := by
  unfold findItem at h
  have hmem := List.mem_of_find?_eq_some h
  have hp := List.find?_some h
  exact List.any_eq_true.mpr ⟨it, hmem, hp⟩

theorem histStatuses_snoc_hit (items' : List ItemRow) (s : EngineState)
    (row : HistoryRow) (k : Nat) (h : (row.item_id == k) = true) :
    histStatuses ⟨items', s.history ++ [row]⟩ k =
      histStatuses s k ++ [row.new_status] := by
  rw [histStatuses_snoc]
  simp [h]

theorem histStatuses_snoc_miss (items' : List ItemRow) (s : EngineState)
    (row : HistoryRow) (k : Nat) (h : (row.item_id == k) = false) :
    histStatuses ⟨items', s.history ++ [row]⟩ k = histStatuses s k := by
  rw [histStatuses_snoc]
  simp [h]

theorem itemHistory_snoc_hit (items' : List ItemRow) (s : EngineState)
    (row : HistoryRow) (k : Nat) (h : (row.item_id == k) = true) :
    itemHistory ⟨items', s.history ++ [row]⟩ k = itemHistory s k ++ [row] := by
  rw [itemHistory_snoc, itemHistory_irrel]
  simp [h]

theorem itemHistory_snoc_miss (items' : List ItemRow) (s : EngineState)
    (row : HistoryRow) (k : Nat) (h : (row.item_id == k) = false) :
    itemHistory ⟨items', s.history ++ [row]⟩ k = itemHistory s k := by
  rw [itemHistory_snoc, itemHistory_irrel]
  simp [h]

theorem beq_symm_false {a b : Nat} (h : ¬((a == b) = true)) : (b == a) = false := by
  rw [beq_eq_false_iff_ne]
  intro he
  rw [he] at h
  exact h (beq_self_eq_true a)

theorem invB_write (s : EngineState) (itemId : Nat) (st : String)
    (oldSt rsn : Option String)
    (hany : s.items.any (fun r => r.item_id == itemId) = true)
    (hinv : invB s = true) (hst : statusCheck st = true) :
    invB ⟨setStatus s.items itemId st,
      s.history ++ [⟨itemId, oldSt, st, rsn⟩]⟩ = true := by
  simp only [invB, Bool.and_eq_true] at hinv
  obtain ⟨⟨hnd, hown⟩, hall⟩ := hinv
  simp only [invB, Bool.and_eq_true]
  refine ⟨⟨?_, ?_⟩, ?_⟩
  · rw [setStatus_map_id]
    exact hnd
  · unfold histOwned at hown ⊢
    simp only [List.all_append, Bool.and_eq_true]
    constructor
    · rw [List.all_eq_true] at hown ⊢
      intro h hm
      rw [setStatus_any_id]
      exact hown h hm
    · simp only [List.all_cons, List.all_nil, Bool.and_true]
      rw [setStatus_any_id]
      exact hany
  · rw [List.all_eq_true]
    intro r' hr'
    obtain ⟨r, hrmem, hreq⟩ := List.mem_map.mp hr'
    have hr := List.all_eq_true.mp hall r hrmem
    simp only [Bool.and_eq_true] at hr
    obtain ⟨⟨hsc, hlink⟩, hhead⟩ := hr
    unfold lastLink at hlink
    unfold headInit at hhead
    rw [decide_eq_true_eq] at hlink hhead
    simp only [Bool.and_eq_true]
    unfold lastLink headInit
    rw [decide_eq_true_eq, decide_eq_true_eq]
    by_cases hid : (r.item_id == itemId) = true
    · have hre : r' = { r with status := st } := by rw [← hreq, if_pos hid]
      have hrid : r'.item_id = r.item_id := by rw [hre]
      have hrst : r'.status = st := by rw [hre]
      have hkid : ((⟨itemId, oldSt, st, rsn⟩ : HistoryRow).item_id == r'.item_id) = true := by
        rw [beq_iff_eq] at hid ⊢
        rw [hrid, hid]
      refine ⟨⟨?_, ?_⟩, ?_⟩
      · rw [hrst]; exact hst
      · rw [histStatuses_snoc_hit _ _ _ _ hkid, List.getLast?_concat, hrst]
      · rw [itemHistory_snoc_hit _ _ _ _ hkid, List.head?_append, hrid, hhead]
        rfl
    · have hre : r' = r := by rw [← hreq, if_neg hid]
      have hne : ((⟨itemId, oldSt, st, rsn⟩ : HistoryRow).item_id == r'.item_id) = false := by
        rw [hre]
        exact beq_symm_false hid
      refine ⟨⟨?_, ?_⟩, ?_⟩
      · rw [hre]; exact hsc
      · rw [histStatuses_snoc_miss _ _ _ _ hne, hre]
        exact hlink
      · rw [itemHistory_snoc_miss _ _ _ _ hne, hre]
        exact hhead

theorem wfForward_write (s : EngineState) (itemId : Nat) (st : String)
    (oldSt rsn : Option String)
    (hinv : invB s = true) (hfwd : wfForward s = true)
    (hlt : ∀ r ∈ s.items, r.item_id = itemId → rankLtB r.status st = true) :
    wfForward ⟨setStatus s.items itemId st,
      s.history ++ [⟨itemId, oldSt, st, rsn⟩]⟩ = true := by
  simp only [invB, Bool.and_eq_true] at hinv
  unfold wfForward at hfwd ⊢
  rw [List.all_eq_true] at hfwd ⊢
  intro r' hr'
  obtain ⟨r, hrmem, hreq⟩ := List.mem_map.mp hr'
  have hfr := hfwd r hrmem
  have hr2 := List.all_eq_true.mp hinv.2 r hrmem
  simp only [Bool.and_eq_true] at hr2
  have hlink := hr2.1.2
  unfold lastLink at hlink
  rw [decide_eq_true_eq] at hlink
  unfold forwardChain at hfr ⊢
  by_cases hid : (r.item_id == itemId) = true
  · have hre : r' = { r with status := st } := by rw [← hreq, if_pos hid]
    have hrid : r'.item_id = r.item_id := by rw [hre]
    have hkid : ((⟨itemId, oldSt, st, rsn⟩ : HistoryRow).item_id == r'.item_id) = true := by
      rw [beq_iff_eq] at hid ⊢
      rw [hrid, hid]
    rw [histStatuses_snoc_hit _ _ _ _ hkid, chainB_snoc]
    refine ⟨?_, ?_⟩
    · rw [hrid]; exact hfr
    · intro a ha
      rw [hrid, hlink] at ha
      injection ha with ha2
      rw [← ha2]
      exact hlt r hrmem (beq_iff_eq.mp hid)
  · have hre : r' = r := by rw [← hreq, if_neg hid]
    have hne : ((⟨itemId, oldSt, st, rsn⟩ : HistoryRow).item_id == r'.item_id) = false := by
      rw [hre]
      exact beq_symm_false hid
    rw [histStatuses_snoc_miss _ _ _ _ hne, hre]
    exact hfr

theorem advance_ok_elim {s s' : EngineState} {itemId : Nat} {t : String}
    {rsn : Option String} (h : advanceStatus s itemId t rsn = Except.ok s') :
    ∃ it, findItem s itemId = some it ∧ nextStatus it.status = some t ∧
      s' = ⟨setStatus s.items itemId t,
        s.history ++ [⟨itemId, some it.status, t, some (rsn.getD ("status advanced"))⟩]⟩ := by
  unfold advanceStatus at h
  split at h
  · cases h
  · next it hit =>
    split at h
    · next hn =>
      injection h with h2
      exact ⟨it, hit, hn, h2.symm⟩
    · cases h

theorem advance_fail {s : EngineState} {itemId : Nat} {t : String}
    {rsn : Option String} {it : ItemRow} (hit : findItem s itemId = some it)
    (hn : ¬(nextStatus it.status = some t)) :
    advanceStatus s itemId t rsn = Except.error EngineError.InvalidTransition := by
  unfold advanceStatus
  rw [hit]
  dsimp only
  rw [if_neg hn]

theorem advance_invB {s s' : EngineState} {itemId : Nat} {t : String}
    {rsn : Option String} (h : advanceStatus s itemId t rsn = Except.ok s')
    (hinv : invB s = true) : invB s' = true := by
  obtain ⟨it, hit, hn, rfl⟩ := advance_ok_elim h
  exact invB_write _ _ _ _ _ (findItem_any hit) hinv (nextStatus_statusCheck _ _ hn).2

theorem findItem_mem_id {s : EngineState} {itemId : Nat} {it : ItemRow}
    (hit : findItem s itemId = some it) : it ∈ s.items ∧ it.item_id = itemId := by
  unfold findItem at hit
  refine ⟨List.mem_of_find?_eq_some hit, ?_⟩
  have hp := List.find?_some hit
  rwa [beq_iff_eq] at hp

theorem advance_wfForward {s s' : EngineState} {itemId : Nat} {t : String}
    {rsn : Option String} (h : advanceStatus s itemId t rsn = Except.ok s')
    (hinv : invB s = true) (hfwd : wfForward s = true) : wfForward s' = true := by
  obtain ⟨it, hit, hn, rfl⟩ := advance_ok_elim h
  apply wfForward_write _ _ _ _ _ hinv hfwd
  intro r hrm hrid
  obtain ⟨hitmem, hitid⟩ := findItem_mem_id hit
  have hnd : nodupB (s.items.map (fun r => r.item_id)) = true := by
    simp only [invB, Bool.and_eq_true] at hinv
    exact hinv.1.1
  have hre : r = it :=
    eq_of_key_nodup (fun x => x.item_id) hnd hrm hitmem
      (by show r.item_id = it.item_id; rw [hrid, hitid])
  rw [hre]
  exact nextStatus_rankLt _ _ hn

theorem reprint_ok_elim {s s' : EngineState} {itemId : Nat} {reason : String}
    (h : requestReprint s itemId reason = Except.ok s') :
    ∃ it, findItem s itemId = some it ∧ ¬(it.status = "In Queue") ∧
      s' = ⟨setStatus s.items itemId ("In Queue"),
        s.history ++ [⟨itemId, some it.status, "In Queue", some reason⟩]⟩ := by
  unfold requestReprint at h
  split at h
  · cases h
  · next it hit =>
    split at h
    · cases h
    · next hq =>
      injection h with h2
      exact ⟨it, hit, hq, h2.symm⟩

theorem reprint_invB {s s' : EngineState} {itemId : Nat} {reason : String}
    (h : requestReprint s itemId reason = Except.ok s')
    (hinv : invB s = true) : invB s' = true := by
  obtain ⟨it, hit, hq, rfl⟩ := reprint_ok_elim h
  exact invB_write _ _ _ _ _ (findItem_any hit) hinv (by decide)

theorem itemHistory_nil_of_fresh (s : EngineState) (itemId : Nat)
    (hown : histOwned s = true)
    (hfresh : s.items.all (fun r => !(r.item_id == itemId)) = true) :
    itemHistory s itemId = [] := by
  unfold itemHistory
  rw [List.filter_eq_nil_iff]
  intro h hm hbeq
  unfold histOwned at hown
  have hx := List.all_eq_true.mp hown h hm
  obtain ⟨r, hrm, hp⟩ := List.any_eq_true.mp hx
  have h1 := List.all_eq_true.mp hfresh r hrm
  rw [Bool.not_eq_true'] at h1
  rw [beq_iff_eq] at hp hbeq
  rw [beq_eq_false_iff_ne] at h1
  exact h1 (hp.trans hbeq)

theorem create_invB (s : EngineState) (itemId productId : Nat) (name : String)
    (hfresh : s.items.all (fun r => !(r.item_id == itemId)) = true)
    (hinv : invB s = true) : invB (createItem s itemId productId name) = true := by
  simp only [invB, Bool.and_eq_true] at hinv
  obtain ⟨⟨hnd, hown⟩, hall⟩ := hinv
  have hnil : itemHistory s itemId = [] := itemHistory_nil_of_fresh s itemId hown hfresh
  simp only [invB, Bool.and_eq_true]
  unfold createItem
  refine ⟨⟨?_, ?_⟩, ?_⟩
  · simp only [List.map_append, List.map_cons, List.map_nil]
    rw [nodupB_snoc]
    refine ⟨hnd, ?_⟩
    intro hmem
    obtain ⟨r, hrm, hkey⟩ := List.mem_map.mp hmem
    have h1 := List.all_eq_true.mp hfresh r hrm
    rw [Bool.not_eq_true', beq_eq_false_iff_ne] at h1
    exact h1 hkey
  · unfold histOwned at hown ⊢
    rw [List.all_eq_true] at hown ⊢
    intro h hm
    rcases List.mem_append.mp hm with hm1 | hm1
    · obtain ⟨r, hrm, hp⟩ := List.any_eq_true.mp (hown h hm1)
      exact List.any_eq_true.mpr ⟨r, List.mem_append_left _ hrm, hp⟩
    · simp only [List.mem_singleton] at hm1
      subst hm1
      exact List.any_eq_true.mpr
        ⟨⟨itemId, productId, name, "In Queue"⟩,
          List.mem_append_right _ (List.mem_singleton.mpr rfl),
          beq_self_eq_true itemId⟩
  · rw [List.all_eq_true]
    intro r' hr'
    simp only [Bool.and_eq_true]
    unfold lastLink headInit
    rw [decide_eq_true_eq, decide_eq_true_eq]
    rcases List.mem_append.mp hr' with hm1 | hm1
    · have hr := List.all_eq_true.mp hall r' hm1
      simp only [Bool.and_eq_true] at hr
      obtain ⟨⟨hsc, hlink⟩, hhead⟩ := hr
      unfold lastLink at hlink
      unfold headInit at hhead
      rw [decide_eq_true_eq] at hlink hhead
      have h1 := List.all_eq_true.mp hfresh r' hm1
      rw [Bool.not_eq_true'] at h1
      have hne : ((⟨itemId, none, "In Queue", some ("created")⟩ : HistoryRow).item_id ==
          r'.item_id) = false := by
        rw [beq_eq_false_iff_ne] at h1 ⊢
        exact fun he => h1 he.symm
      refine ⟨⟨hsc, ?_⟩, ?_⟩
      · rw [histStatuses_snoc_miss _ _ _ _ hne]
        exact hlink
      · rw [itemHistory_snoc_miss _ _ _ _ hne]
        exact hhead
    · simp only [List.mem_singleton] at hm1
      subst hm1
      have hhit : ((⟨itemId, none, "In Queue", some ("created")⟩ : HistoryRow).item_id ==
          (⟨itemId, productId, name, "In Queue"⟩ : ItemRow).item_id) = true :=
        beq_self_eq_true itemId
      refine ⟨⟨by show statusCheck ("In Queue") = true; decide, ?_⟩, ?_⟩
      · rw [histStatuses_snoc_hit _ _ _ _ hhit]
        unfold histStatuses
        rw [hnil]
        rfl
      · rw [itemHistory_snoc_hit _ _ _ _ hhit, hnil]
        rfl

theorem create_wfForward (s : EngineState) (itemId productId : Nat) (name : String)
    (hfresh : s.items.all (fun r => !(r.item_id == itemId)) = true)
    (hinv : invB s = true) (hfwd : wfForward s = true) :
    wfForward (createItem s itemId productId name) = true := by
  simp only [invB, Bool.and_eq_true] at hinv
  have hnil : itemHistory s itemId = [] :=
    itemHistory_nil_of_fresh s itemId hinv.1.2 hfresh
  unfold wfForward at hfwd ⊢
  rw [List.all_eq_true] at hfwd ⊢
  intro r' hr'
  unfold createItem at hr' ⊢
  unfold forwardChain
  rcases List.mem_append.mp hr' with hm1 | hm1
  · have h1 := List.all_eq_true.mp hfresh r' hm1
    rw [Bool.not_eq_true'] at h1
    have hne : ((⟨itemId, none, "In Queue", some ("created")⟩ : HistoryRow).item_id ==
        r'.item_id) = false := by
      rw [beq_eq_false_iff_ne] at h1 ⊢
      exact fun he => h1 he.symm
    rw [histStatuses_snoc_miss _ _ _ _ hne]
    exact hfwd r' hm1
  · simp only [List.mem_singleton] at hm1
    subst hm1
    have hhit : ((⟨itemId, none, "In Queue", some ("created")⟩ : HistoryRow).item_id ==
        (⟨itemId, productId, name, "In Queue"⟩ : ItemRow).item_id) = true :=
      beq_self_eq_true itemId
    rw [histStatuses_snoc_hit _ _ _ _ hhit]
    unfold histStatuses
    rw [hnil]
    rfl

theorem reach_invB {s : EngineState} (h : Reach s) : invB s = true := by
  induction h with
  | empty => decide
  | create itemId productId name hr hfresh ih => exact create_invB _ _ _ _ hfresh ih
  | advance itemId target reason hr hok ih => exact advance_invB hok ih
  | reprint itemId reason hr hok ih => exact reprint_invB hok ih

theorem applyAdvances_preserves (calls : List (Nat × String × Option String)) :
    ∀ s : EngineState, invB s = true → wfForward s = true →
      invB (applyAdvances s calls) = true ∧
        wfForward (applyAdvances s calls) = true := by
  induction calls with
  | nil => exact fun s h1 h2 => ⟨h1, h2⟩
  | cons c rest ih =>
    intro s h1 h2
    unfold applyAdvances
    simp only [List.foldl_cons]
    cases hadv : advanceStatus s c.1 c.2.1 c.2.2 with
    | ok s' =>
      simp only [hadv]
      exact ih s' (advance_invB hadv h1) (advance_wfForward hadv h1 h2)
    | error e =>
      simp only [hadv]
      exact ih s h1 h2

theorem advance_ok_eq {s : EngineState} {itemId : Nat} {t : String}
    {rsn : Option String} {it : ItemRow} (hit : findItem s itemId = some it)
    (hn : nextStatus it.status = some t) :
    advanceStatus s itemId t rsn = Except.ok
      ⟨setStatus s.items itemId t,
        s.history ++ [⟨itemId, some it.status, t, some (rsn.getD ("status advanced"))⟩]⟩ := by
  unfold advanceStatus
  rw [hit]
  dsimp only
  rw [if_pos hn]

theorem statusCheck_iff (st : String) :
    statusCheck st = true ↔
      st = "In Queue" ∨ st = "In Printfarm" ∨ st = "Printed" ∨
        st = "Assembled" ∨ st = "Packed" ∨ st = "Shipped" := by
  unfold statusCheck statusOrder
  simp [List.contains_eq_any_beq, List.any_cons, List.any_nil, beq_iff_eq]

/-- C1: For every item, `AdvanceStatus(itemId, targetStatus, reason?)`
succeeds if and only if targetStatus is the immediate successor of the
item's current status in the fixed order In Queue, In Printfarm, Printed,
Assembled, Packed, Shipped; otherwise it fails with InvalidTransition and
the item's status is unchanged; the successor relation is strictly forward
in that order, so under any sequence of AdvanceStatus calls every item's
recorded status history stays a strictly forward path. -/
theorem advanceStatus_forward_only (s : EngineState) (itemId : Nat)
    (it : ItemRow) (hit : findItem s itemId = some it) (target : String)
    (reason : Option String) (hinv : invB s = true) (hfwd : wfForward s = true) :
    ((advanceStatus s itemId target reason).isOk = true ↔
        nextStatus it.status = some target)
    ∧ (¬(nextStatus it.status = some target) →
        advanceStatus s itemId target reason =
          Except.error EngineError.InvalidTransition
        ∧ applyAdvances s [(itemId, target, reason)] = s)
    ∧ (∀ a b, nextStatus a = some b → rankLtB a b = true)
    ∧ (∀ calls, wfForward (applyAdvances s calls) = true) := by
  refine ⟨⟨?_, ?_⟩, ?_, nextStatus_rankLt,
    fun calls => (applyAdvances_preserves calls s hinv hfwd).2⟩
  · intro hok
    cases hadv : advanceStatus s itemId target reason with
    | ok s' =>
      obtain ⟨it2, hit2, hn2, _⟩ := advance_ok_elim hadv
      rw [hit2] at hit
      injection hit with he
      rw [← he]
      exact hn2
    | error e =>
      rw [hadv] at hok
      exact Bool.noConfusion hok
  · intro hn
    rw [advance_ok_eq hit hn]
    rfl
  · intro hn
    refine ⟨advance_fail hit hn, ?_⟩
    unfold applyAdvances
    simp only [List.foldl_cons, List.foldl_nil, advance_fail hit hn]

theorem advanceStatus_forward_only_witness :
    invB (createItem ⟨[], []⟩ 1 1 ("plate")) = true ∧
    wfForward (createItem ⟨[], []⟩ 1 1 ("plate")) = true ∧
    findItem (createItem ⟨[], []⟩ 1 1 ("plate")) 1 =
      some ⟨1, 1, "plate", "In Queue"⟩ ∧
    ((advanceStatus (createItem ⟨[], []⟩ 1 1 ("plate")) 1 ("In Printfarm")
        none).isOk = true ↔
      nextStatus (⟨1, 1, "plate", "In Queue"⟩ : ItemRow).status =
        some ("In Printfarm")) :=
  ⟨by decide, by decide, by decide,
    (advanceStatus_forward_only (createItem ⟨[], []⟩ 1 1 ("plate")) 1
      ⟨1, 1, "plate", "In Queue"⟩ (by decide) ("In Printfarm") none
      (by decide) (by decide)).1⟩

/-- C2: In every reachable store state, every item's status is one of
exactly the six defined states (the schema CHECK), and the first recorded
StatusHistory row of every item is its creation row (old_status null,
new_status In Queue, reason "created"); creating an item appends an item
row at status In Queue together with exactly that history row. -/
theorem item_status_domain (s : EngineState) (hreach : Reach s) :
    (∀ r ∈ s.items,
      (statusCheck r.status = true ∧
        (r.status = "In Queue" ∨ r.status = "In Printfarm" ∨
          r.status = "Printed" ∨ r.status = "Assembled" ∨
          r.status = "Packed" ∨ r.status = "Shipped")) ∧
      (itemHistory s r.item_id).head? =
        some ⟨r.item_id, none, "In Queue", some ("created")⟩)
    ∧ (∀ (s2 : EngineState) (itemId productId : Nat) (name : String),
        (createItem s2 itemId productId name).items.getLast? =
          some ⟨itemId, productId, name, "In Queue"⟩ ∧
        (createItem s2 itemId productId name).history.getLast? =
          some ⟨itemId, none, "In Queue", some ("created")⟩) := by
  constructor
  · intro r hr
    have hinv := reach_invB hreach
    simp only [invB, Bool.and_eq_true] at hinv
    have h1 := List.all_eq_true.mp hinv.2 r hr
    simp only [Bool.and_eq_true] at h1
    obtain ⟨⟨hsc, _⟩, hhead⟩ := h1
    unfold headInit at hhead
    rw [decide_eq_true_eq] at hhead
    exact ⟨⟨hsc, (statusCheck_iff _).mp hsc⟩, hhead⟩
  · intro s2 itemId productId name
    unfold createItem
    exact ⟨List.getLast?_concat _, List.getLast?_concat _⟩

theorem item_status_domain_witness :
    Reach (createItem ⟨[], []⟩ 1 1 ("plate")) ∧
    ((∀ r ∈ (createItem ⟨[], []⟩ 1 1 ("plate")).items,
      (statusCheck r.status = true ∧
        (r.status = "In Queue" ∨ r.status = "In Printfarm" ∨
          r.status = "Printed" ∨ r.status = "Assembled" ∨
          r.status = "Packed" ∨ r.status = "Shipped")) ∧
      (itemHistory (createItem ⟨[], []⟩ 1 1 ("plate")) r.item_id).head? =
        some ⟨r.item_id, none, "In Queue", some ("created")⟩)
    ∧ (∀ (s2 : EngineState) (itemId productId : Nat) (name : String),
        (createItem s2 itemId productId name).items.getLast? =
          some ⟨itemId, productId, name, "In Queue"⟩ ∧
        (createItem s2 itemId productId name).history.getLast? =
          some ⟨itemId, none, "In Queue", some ("created")⟩)) :=
  have hre : Reach (createItem ⟨[], []⟩ 1 1 ("plate")) :=
    Reach.create 1 1 ("plate") Reach.empty (by decide)
  ⟨hre, item_status_domain (createItem ⟨[], []⟩ 1 1 ("plate")) hre⟩

/- ### Lemmas about order-number generation (C3). -/

theorem digitVal_digitChar (d : Nat) (h : d < 10) :
    digitVal (digitChar d) = some d := by
  interval_cases d <;> decide

theorem parseFold_step (acc d : Nat) (h : d < 10) :
    parseFold (some acc) (digitChar d) = some (acc * 10 + d) := by
  unfold parseFold
  rw [digitVal_digitChar d h]

theorem renderAux_parse : ∀ (fuel n acc : Nat), n < fuel →
    (renderAux fuel n).foldl parseFold (some acc) =
      some (acc * 10 ^ (renderAux fuel n).length + n) := by
  intro fuel
  induction fuel with
  | zero => intro n acc h; omega
  | succ fuel ih =>
    intro n acc h
    unfold renderAux
    by_cases h10 : n < 10
    · rw [if_pos h10]
      simp only [List.foldl_cons, List.foldl_nil, List.length_cons, List.length_nil]
      rw [parseFold_step acc n h10]
      norm_num
    · rw [if_neg h10]
      have hdiv : n / 10 < fuel := by
        have h1 : n / 10 < n := Nat.div_lt_self (by omega) (by omega)
        omega
      rw [List.foldl_append, ih (n / 10) acc hdiv]
      simp only [List.foldl_cons, List.foldl_nil]
      rw [parseFold_step _ _ (Nat.mod_lt n (by omega))]
      rw [List.length_append]
      simp only [List.length_cons, List.length_nil]
      rw [pow_succ, ← mul_assoc]
      congr 1
      generalize acc * 10 ^ (renderAux fuel (n / 10)).length = P
      omega

theorem renderAux_length_le : ∀ (fuel n k : Nat), n < fuel → 1 ≤ k →
    n < 10 ^ k → (renderAux fuel n).length ≤ k := by
  intro fuel
  induction fuel with
  | zero => intro n k h; omega
  | succ fuel ih =>
    intro n k h hk hnk
    unfold renderAux
    by_cases h10 : n < 10
    · rw [if_pos h10]
      simpa using hk
    · rw [if_neg h10]
      rw [List.length_append]
      simp only [List.length_cons, List.length_nil]
      cases k with
      | zero => omega
      | succ k2 =>
        have hk2 : 1 ≤ k2 := by
          by_contra hc
          push_neg at hc
          interval_cases k2
          · rw [pow_one] at hnk
            omega
        have hdivk : n / 10 < 10 ^ k2 := by
          rw [Nat.div_lt_iff_lt_mul (by omega)]
          calc n < 10 ^ (k2 + 1) := hnk
            _ = 10 ^ k2 * 10 := pow_succ 10 k2
        have hdiv : n / 10 < fuel := by
          have := Nat.div_lt_self (show 0 < n by omega) (show 1 < 10 by omega)
          omega
        have := ih (n / 10) k2 hdiv hk2 hdivk
        omega

theorem renderAux_length_ge : ∀ (fuel n k : Nat), n < fuel → 10 ^ k ≤ n →
    k + 1 ≤ (renderAux fuel n).length := by
  intro fuel
  induction fuel with
  | zero => intro n k h; omega
  | succ fuel ih =>
    intro n k h hk
    unfold renderAux
    by_cases h10 : n < 10
    · rw [if_pos h10]
      simp only [List.length_cons, List.length_nil]
      cases k with
      | zero => omega
      | succ k2 =>
        exfalso
        have h1 : (10 : Nat) ≤ 10 ^ (k2 + 1) := by
          calc (10 : Nat) = 10 ^ 1 := (pow_one 10).symm
            _ ≤ 10 ^ (k2 + 1) := Nat.pow_le_pow_right (by omega) (by omega)
        omega
    · rw [if_neg h10, List.length_append]
      simp only [List.length_cons, List.length_nil]
      cases k with
      | zero => omega
      | succ k2 =>
        have h1 : 10 ^ k2 ≤ n / 10 := by
          rw [Nat.le_div_iff_mul_le (by omega)]
          calc 10 ^ k2 * 10 = 10 ^ (k2 + 1) := (pow_succ 10 k2).symm
            _ ≤ n := hk
        have hdiv : n / 10 < fuel := by
          have := Nat.div_lt_self (show 0 < n by omega) (show 1 < 10 by omega)
          omega
        have := ih (n / 10) k2 hdiv h1
        omega

theorem renderNum_ne_nil (n : Nat) : renderNum n ≠ [] := by
  unfold renderNum renderAux
  by_cases h10 : n < 10
  · rw [if_pos h10]
    simp
  · rw [if_neg h10]
    simp

theorem parseFold_zeros (z : Nat) :
    (List.replicate z '0').foldl parseFold (some 0) = some 0 := by
  induction z with
  | zero => rfl
  | succ z ih =>
    rw [List.replicate_succ, List.foldl_cons]
    rw [show parseFold (some 0) ('0') = some 0 from by decide]
    exact ih

theorem parse_padded (z n : Nat) :
    parseOrderNumber ⟨List.replicate z '0' ++ renderNum n⟩ = some n := by
  unfold parseOrderNumber
  have hne : ¬((List.replicate z '0' ++ renderNum n).isEmpty = true) := by
    intro hc
    rcases List.append_eq_nil.mp (List.isEmpty_iff.mp hc) with ⟨_, h2⟩
    exact renderNum_ne_nil n h2
  rw [if_neg hne]
  show (List.replicate z '0' ++ renderNum n).foldl parseFold (some 0) = some n
  rw [List.foldl_append, parseFold_zeros]
  unfold renderNum
  rw [renderAux_parse (n + 1) n 0 (Nat.lt_succ_self n)]
  simp

/-- C3: Modelled from the spec, with the order_number UNIQUE constraint
from schema.sql.  The generated order number is one plus the numeric
maximum of the existing order numbers that parse as integers (1 with no
numeric order): it parses back to that value and strictly exceeds every
numeric existing order number; it is zero-padded to exactly 3 digits while
the value is at most 999 and is the plain numeral afterwards; non-numeric
order numbers such as "CUSTOM-1" are ignored by the computation but still
make a later insert with the same order_number fail with DuplicateKey.
Concretely, from {"001","002","007"} the next number is "008", and with no
orders it is "001". -/
theorem order_number_generation :
    generateOrderNumber [("001"), ("002"), ("007")] = "008"
    ∧ generateOrderNumber [] = "001"
    ∧ (∀ existing, parseOrderNumber (generateOrderNumber existing) =
        some (numericMax existing + 1))
    ∧ (∀ existing s v, s ∈ existing → parseOrderNumber s = some v →
        v < numericMax existing + 1)
    ∧ (∀ existing, numericMax existing + 1 ≤ 999 →
        (generateOrderNumber existing).length = 3)
    ∧ (∀ existing, 1000 ≤ numericMax existing + 1 →
        (generateOrderNumber existing).data = renderNum (numericMax existing + 1))
    ∧ (∀ l1 l2 s, parseOrderNumber s = none →
        generateOrderNumber (l1 ++ s :: l2) = generateOrderNumber (l1 ++ l2))
    ∧ (∀ tbl row, platformCheck row.platform = true →
        row.order_number ∈ tbl.map (fun r => r.order_number) →
        insertOrder tbl row = Except.error OrdersError.DuplicateKey) := by
  refine ⟨by decide, by decide, ?_, ?_, ?_, ?_, ?_, ?_⟩
  · intro existing
    unfold generateOrderNumber
    by_cases hlen : (renderNum (numericMax existing + 1)).length < 3
    · rw [if_pos hlen]
      exact parse_padded _ _
    · rw [if_neg hlen]
      have h0 := parse_padded 0 (numericMax existing + 1)
      simpa using h0
  · intro existing s v hs hp
    have hmem : v ∈ existing.filterMap parseOrderNumber :=
      List.mem_filterMap.mpr ⟨s, hs, hp⟩
    have := mem_le_foldl_max (existing.filterMap parseOrderNumber) 0 v hmem
    unfold numericMax
    omega
  · intro existing hle
    unfold generateOrderNumber
    have hpow : (10 : Nat) ^ 3 = 1000 := by norm_num
    have hlen3 : (renderNum (numericMax existing + 1)).length ≤ 3 := by
      unfold renderNum
      exact renderAux_length_le _ _ 3 (Nat.lt_succ_self _) (by omega) (by omega)
    by_cases hlen : (renderNum (numericMax existing + 1)).length < 3
    · rw [if_pos hlen]
      show (List.replicate (3 - (renderNum (numericMax existing + 1)).length) '0' ++
        renderNum (numericMax existing + 1)).length = 3
      rw [List.length_append, List.length_replicate]
      omega
    · rw [if_neg hlen]
      show (renderNum (numericMax existing + 1)).length = 3
      omega
  · intro existing hge
    unfold generateOrderNumber
    have hpow : (10 : Nat) ^ 3 = 1000 := by norm_num
    have hlen4 : 4 ≤ (renderNum (numericMax existing + 1)).length := by
      unfold renderNum
      exact renderAux_length_ge _ _ 3 (Nat.lt_succ_self _) (by omega)
    rw [if_neg (by omega)]
  · intro l1 l2 s hp
    unfold generateOrderNumber numericMax
    rw [List.filterMap_append, List.filterMap_append, List.filterMap_cons, hp]
  · intro tbl row hplat hmem
    unfold insertOrder
    rw [if_neg (by rw [hplat]; simp)]
    obtain ⟨r, hr, hkey⟩ := List.mem_map.mp hmem
    have hb : (r.order_number == row.order_number) = true := beq_iff_eq.mpr hkey
    have hany : (tbl.any fun r => r.order_number == row.order_number) = true :=
      List.any_eq_true.mpr ⟨r, hr, hb⟩
    rw [if_pos hany]

theorem order_number_generation_witness :
    (("007") ∈ [("001"), ("002"), ("007")] ∧
      parseOrderNumber ("007") = some 7 ∧
      7 < numericMax [("001"), ("002"), ("007")] + 1)
    ∧ (numericMax [("001"), ("002"), ("007")] + 1 ≤ 999 ∧
      (generateOrderNumber [("001"), ("002"), ("007")]).length = 3)
    ∧ (parseOrderNumber ("CUSTOM-1") = none ∧
      generateOrderNumber ([("007")] ++ ("CUSTOM-1") :: []) =
        generateOrderNumber ([("007")] ++ []))
    ∧ (platformCheck ("Etsy") = true ∧
      ("007") ∈ ([⟨1, "007", "c", "Etsy", none, "2025-01-01", false, false, none⟩] :
        List OrderRow).map (fun r => r.order_number) ∧
      insertOrder [⟨1, "007", "c", "Etsy", none, "2025-01-01", false, false, none⟩]
        ⟨2, "007", "d", "Etsy", none, "2025-01-02", false, false, none⟩ =
        Except.error OrdersError.DuplicateKey) :=
  ⟨⟨by decide, by decide,
    (order_number_generation.2.2.2.1) [("001"), ("002"), ("007")] ("007") 7
      (by decide) (by decide)⟩,
   ⟨by decide,
    (order_number_generation.2.2.2.2.1) [("001"), ("002"), ("007")] (by decide)⟩,
   ⟨by decide,
    (order_number_generation.2.2.2.2.2.2.1) [("007")] [] ("CUSTOM-1") (by decide)⟩,
   ⟨by decide, by decide,
    (order_number_generation.2.2.2.2.2.2.2)
      [⟨1, "007", "c", "Etsy", none, "2025-01-01", false, false, none⟩]
      ⟨2, "007", "d", "Etsy", none, "2025-01-02", false, false, none⟩
      (by decide) (by decide)⟩⟩

/- ### Lemmas about the orders table platform CHECK (C4). -/

theorem platformCheck_iff (p : String) :
    platformCheck p = true ↔ ∃ pf : Platform, p = pf.toDb := by
  constructor
  · intro h
    unfold platformCheck at h
    simp only [Bool.or_eq_true, beq_iff_eq] at h
    rcases h with (h | h) | h
    · exact ⟨Platform.Shopify, h⟩
    · exact ⟨Platform.Etsy, h⟩
    · exact ⟨Platform.CustomOrder, h⟩
  · rintro ⟨pf, rfl⟩
    cases pf <;> decide

theorem reachOrders_platform {tbl : List OrderRow} (h : ReachOrders tbl) :
    ∀ o ∈ tbl, platformCheck o.platform = true := by
  induction h with
  | empty => intro o ho; cases ho
  | insert row hr hok ih =>
    intro o ho
    unfold insertOrder at hok
    split at hok
    · cases hok
    · next hc1 =>
      split at hok
      · cases hok
      · injection hok with he
        rw [← he] at ho
        rcases List.mem_append.mp ho with hm | hm
        · exact ih o hm
        · simp only [List.mem_singleton] at hm
          subst hm
          rw [Bool.not_eq_true', Bool.not_eq_false] at hc1
          exact hc1
  | updatePlat orderId p hr hok ih =>
    intro o ho
    unfold updateOrderPlatform at hok
    split at hok
    · cases hok
    · next hc1 =>
      injection hok with he
      rw [← he] at ho
      obtain ⟨r, hrm, hre⟩ := List.mem_map.mp ho
      rw [Bool.not_eq_true', Bool.not_eq_false] at hc1
      by_cases hid : (r.order_id == orderId) = true
      · rw [if_pos hid] at hre
        rw [← hre]
        exact hc1
      · rw [if_neg hid] at hre
        rw [← hre]
        exact ih r hrm

/-- C4: In every reachable orders-table state, every stored order's
platform is one of exactly the three enum values the spec names (Shopify,
Etsy, CustomOrder — the last stored as the text 'Custom Order'), and an
insert or platform update with any other value is rejected by the schema's
CHECK constraint. -/
theorem order_platform_domain (tbl : List OrderRow) (hreach : ReachOrders tbl) :
    (∀ o ∈ tbl, platformCheck o.platform = true ∧
      ∃ pf : Platform, o.platform = pf.toDb)
    ∧ (∀ (t2 : List OrderRow) (row : OrderRow),
        platformCheck row.platform = false →
        insertOrder t2 row = Except.error OrdersError.CheckViolation)
    ∧ (∀ (t2 : List OrderRow) (orderId : Nat) (p : String),
        platformCheck p = false →
        updateOrderPlatform t2 orderId p = Except.error OrdersError.CheckViolation)
    ∧ (∀ p : String, platformCheck p = true ↔ ∃ pf : Platform, p = pf.toDb) := by
  refine ⟨?_, ?_, ?_, platformCheck_iff⟩
  · intro o ho
    have h1 := reachOrders_platform hreach o ho
    exact ⟨h1, (platformCheck_iff _).mp h1⟩
  · intro t2 row hbad
    unfold insertOrder
    rw [if_pos (by rw [hbad]; rfl)]
  · intro t2 orderId p hbad
    unfold updateOrderPlatform
    rw [if_pos (by rw [hbad]; rfl)]

theorem order_platform_domain_witness :
    ReachOrders [⟨1, "001", "c", "Etsy", none, "2025-01-01", false, false, none⟩] ∧
    (∀ o ∈ ([⟨1, "001", "c", "Etsy", none, "2025-01-01", false, false, none⟩] :
        List OrderRow),
      platformCheck o.platform = true ∧ ∃ pf : Platform, o.platform = pf.toDb) ∧
    platformCheck ("Amazon") = false ∧
    insertOrder []
      ⟨1, "001", "c", "Amazon", none, "2025-01-01", false, false, none⟩ =
      Except.error OrdersError.CheckViolation :=
  have hre : ReachOrders
      [⟨1, "001", "c", "Etsy", none, "2025-01-01", false, false, none⟩] :=
    ReachOrders.insert ⟨1, "001", "c", "Etsy", none, "2025-01-01", false, false, none⟩
      ReachOrders.empty (by decide)
  ⟨hre, (order_platform_domain _ hre).1, by decide,
    (order_platform_domain _ hre).2.1 []
      ⟨1, "001", "c", "Amazon", none, "2025-01-01", false, false, none⟩ (by decide)⟩

/-- C5: `ProductTemplate.create` fails (a thrown validation error the
admin route surfaces as HTTP 400) whenever num_colors is missing or
outside 1..4, leaving the template and template-parts tables untouched —
with the exact message "num_colors must be between 1 and 4" whenever
template_name itself passes its validation; and for every num_colors in
1..4 with a present, fresh template_name and well-formed parts
(referencing distinct existing part ids), it creates the template row
together with all supplied (part_id, quantity) rows in one transaction and
returns the created template. -/
theorem template_create_validation :
    (∀ (st : PTState) (d : TemplateData), ncBad d.num_colors = true →
      (ProductTemplate.create st d).1 = st ∧
      ∃ msg, (ProductTemplate.create st d).2 = Except.error (PTError.Validation msg))
    ∧ (∀ (st : PTState) (d : TemplateData), ncBad d.num_colors = true →
        tnameFalsy d.template_name = false →
        (ProductTemplate.create st d).2 =
          Except.error (PTError.Validation ("num_colors must be between 1 and 4")))
    ∧ (∀ (st : PTState) (d : TemplateData) (name : String) (nc : Int),
        d.template_name = some name → tnameFalsy d.template_name = false →
        d.num_colors = some nc → 1 ≤ nc → nc ≤ 4 →
        (st.templates.any (fun t => t.template_name == name)) = false →
        (d.parts.any (fun pq => !(st.parts.any (fun p => p.part_id == pq.1)))) = false →
        nodupB (d.parts.map Prod.fst) = true →
        ProductTemplate.create st d =
          ({ parts := st.parts,
             templates := st.templates ++
               [⟨nextTemplateId st, name, d.description, nc,
                 d.print_time_minutes.getD 0, d.print_cost.getD 0, true⟩],
             template_parts := st.template_parts ++
               d.parts.map (fun pq => ⟨nextTemplateId st, pq.1, qtyOf pq.2⟩) },
            Except.ok ⟨nextTemplateId st, name, d.description, nc,
              d.print_time_minutes.getD 0, d.print_cost.getD 0, true⟩)) := by
  refine ⟨?_, ?_, ?_⟩
  · intro st d hbad
    unfold ProductTemplate.create
    by_cases ht : tnameFalsy d.template_name = true
    · rw [if_pos ht]
      exact ⟨rfl, ⟨"template_name is required", rfl⟩⟩
    · rw [if_neg ht, if_pos hbad]
      exact ⟨rfl, ⟨"num_colors must be between 1 and 4", rfl⟩⟩
  · intro st d hbad ht
    unfold ProductTemplate.create
    rw [if_neg (by rw [ht]; exact Bool.false_ne_true), if_pos hbad]
  · intro st d name nc hdn ht hnc h1 h4 hdup hfk hnodup
    have hncgood : ncBad d.num_colors = false := by
      rw [hnc]
      unfold ncBad
      simp only [Bool.or_eq_false_iff, beq_eq_false_iff_ne, ne_eq,
        decide_eq_false_iff_not]
      refine ⟨⟨?_, ?_⟩, ?_⟩ <;> omega
    unfold ProductTemplate.create
    rw [if_neg (by rw [ht]; exact Bool.false_ne_true),
      if_neg (by rw [hncgood]; exact Bool.false_ne_true)]
    rw [show d.template_name.getD ("") = name from by rw [hdn]; rfl]
    rw [if_neg (by rw [hdup]; exact Bool.false_ne_true),
      if_neg (by rw [hfk]; exact Bool.false_ne_true),
      if_neg (by rw [hnodup]; simp)]
    rw [show d.num_colors.getD 0 = nc from by rw [hnc]; rfl]

theorem template_create_validation_witness :
    (ncBad (some 5) = true ∧
      (ProductTemplate.create ⟨[], [], []⟩
        ⟨some ("T"), none, some 5, none, none, []⟩).1 = ⟨[], [], []⟩ ∧
      (ProductTemplate.create ⟨[], [], []⟩
        ⟨some ("T"), none, some 5, none, none, []⟩).2 =
          Except.error (PTError.Validation ("num_colors must be between 1 and 4")))
    ∧ ProductTemplate.create ⟨[⟨1, some ("P1"), "Part One", none, true⟩], [], []⟩
        ⟨some ("T"), none, some 2, some 30, some 250, [(1, some 4)]⟩ =
        ({ parts := [⟨1, some ("P1"), "Part One", none, true⟩],
           templates := [⟨1, "T", none, 2, 30, 250, true⟩],
           template_parts := [⟨1, 1, 4⟩] },
          Except.ok ⟨1, "T", none, 2, 30, 250, true⟩) :=
  ⟨⟨by decide,
    (template_create_validation.1 ⟨[], [], []⟩
      ⟨some ("T"), none, some 5, none, none, []⟩ (by decide)).1,
    template_create_validation.2.1 ⟨[], [], []⟩
      ⟨some ("T"), none, some 5, none, none, []⟩ (by decide) (by decide)⟩,
   by
    have h := template_create_validation.2.2
      ⟨[⟨1, some ("P1"), "Part One", none, true⟩], [], []⟩
      ⟨some ("T"), none, some 2, some 30, some 250, [(1, some 4)]⟩
      ("T") 2 (by decide) (by decide) (by decide) (by decide) (by decide)
      (by decide) (by decide) (by decide)
    exact h⟩

/- ### Lemmas for the color admin API (C6). -/

theorem nextColorId_fresh (tbl : List ColorRow) :
    ∀ r ∈ tbl, ¬(r.color_id = nextColorId tbl) := by
  intro r hr he
  have h1 : r.color_id ∈ tbl.map (fun x => x.color_id) :=
    List.mem_map_of_mem _ hr
  have h2 := mem_le_foldl_max (tbl.map (fun x => x.color_id)) 0 r.color_id h1
  unfold nextColorId at he
  omega

/-- C6: Creating a color whose color_name equals an existing one fails
with the uniqueness violation the admin route surfaces as HTTP 409,
leaving the colors table unchanged; creating a color with a fresh
color_name succeeds, stores the row active, and returns the newly stored
row (retrievable by its fresh id, as the source's
`getById(lastInsertRowid)` does). -/
theorem color_create_unique :
    (∀ (tbl : List ColorRow) (d : ColorData),
      (∃ r ∈ tbl, r.color_name = d.color_name) →
      Color.create tbl d = (tbl, Except.error AdminError.DuplicateKey))
    ∧ (∀ (tbl : List ColorRow) (d : ColorData),
        (∀ r ∈ tbl, ¬(r.color_name = d.color_name)) →
        ∃ row, Color.create tbl d = (tbl ++ [row], Except.ok row) ∧
          row.color_name = d.color_name ∧ row.hex_code = d.hex_code ∧
          row.is_active = true ∧
          Color.getById (tbl ++ [row]) row.color_id = some row) := by
  constructor
  · intro tbl d ⟨r, hr, hn⟩
    unfold Color.create
    have hb : (r.color_name == d.color_name) = true := beq_iff_eq.mpr hn
    have hany : (tbl.any fun r => r.color_name == d.color_name) = true :=
      List.any_eq_true.mpr ⟨r, hr, hb⟩
    rw [if_pos hany]
  · intro tbl d hfresh
    unfold Color.create
    rw [if_neg (by
      intro hc
      obtain ⟨r, hr, hp⟩ := List.any_eq_true.mp hc
      exact hfresh r hr (beq_iff_eq.mp hp))]
    refine ⟨_, rfl, rfl, rfl, rfl, ?_⟩
    unfold Color.getById
    rw [List.find?_append]
    have hnone : tbl.find? (fun r => r.color_id == nextColorId tbl) = none := by
      rw [List.find?_eq_none]
      intro x hx hp
      exact nextColorId_fresh tbl x hx (beq_iff_eq.mp hp)
    rw [hnone]
    simp [List.find?]

theorem color_create_unique_witness :
    ((∃ r ∈ [(⟨1, "Red", "#f00", none, none, none, none, 0, 0, true⟩ : ColorRow)],
        r.color_name = "Red") ∧
      Color.create [⟨1, "Red", "#f00", none, none, none, none, 0, 0, true⟩]
        ⟨"Red", "#0f0", none, none, none, none, none, none⟩ =
        ([⟨1, "Red", "#f00", none, none, none, none, 0, 0, true⟩],
          Except.error AdminError.DuplicateKey))
    ∧ ((∀ r ∈ [(⟨1, "Red", "#f00", none, none, none, none, 0, 0, true⟩ : ColorRow)],
        ¬(r.color_name = "Blue")) ∧
      ∃ row, Color.create [⟨1, "Red", "#f00", none, none, none, none, 0, 0, true⟩]
          ⟨"Blue", "#00f", none, none, none, none, none, none⟩ =
          ([⟨1, "Red", "#f00", none, none, none, none, 0, 0, true⟩] ++ [row],
            Except.ok row) ∧
        row.color_name = "Blue" ∧ row.hex_code = "#00f" ∧
        row.is_active = true ∧
        Color.getById ([⟨1, "Red", "#f00", none, none, none, none, 0, 0, true⟩] ++ [row])
          row.color_id = some row) :=
  ⟨⟨by decide,
    color_create_unique.1 [⟨1, "Red", "#f00", none, none, none, none, 0, 0, true⟩]
      ⟨"Red", "#0f0", none, none, none, none, none, none⟩ (by decide)⟩,
   ⟨by decide,
    color_create_unique.2 [⟨1, "Red", "#f00", none, none, none, none, 0, 0, true⟩]
      ⟨"Blue", "#00f", none, none, none, none, none, none⟩ (by decide)⟩⟩

/-- C7 counterexample: in a state whose only part is soft-deleted
(is_active = 0), `ProductTemplate.addPart` nevertheless succeeds and
inserts the association row — the source performs no InactiveReference
check on the template-attachment path, refuting the claim that attaching a
soft-deleted part fails and leaves the association tables unchanged. -/
theorem addPart_inactive_succeeds :
    (∀ p ∈ (⟨[⟨1, some ("P1"), "Part One", none, false⟩],
        [⟨1, "T", none, 1, 0, 0, true⟩], []⟩ : PTState).parts,
      p.is_active = false)
    ∧ (ProductTemplate.addPart ⟨[⟨1, some ("P1"), "Part One", none, false⟩],
        [⟨1, "T", none, 1, 0, 0, true⟩], []⟩ 1 1 1).2 = Except.ok true
    ∧ (ProductTemplate.addPart ⟨[⟨1, some ("P1"), "Part One", none, false⟩],
        [⟨1, "T", none, 1, 0, 0, true⟩], []⟩ 1 1 1).1.template_parts =
        [⟨1, 1, 1⟩] := by
  decide

/-- C7 as amended: attaching a part to a template succeeds for every
existing template id and every existing part id regardless of the part's
is_active flag — only referential existence is enforced (enabled foreign
keys); no InactiveReference failure exists on this path.  (The
item-attachment path the spec also mentions is not present in the
repository's source.) -/
theorem addPart_ignores_is_active (st : PTState) (templateId partId : Nat)
    (q : Int)
    (ht : (st.templates.any (fun t => t.template_id == templateId)) = true)
    (hp : (st.parts.any (fun p => p.part_id == partId)) = true) :
    (ProductTemplate.addPart st templateId partId q).2 = Except.ok true
    ∧ ((st.template_parts.any
          (fun tp => tp.template_id == templateId && tp.part_id == partId)) = false →
        (ProductTemplate.addPart st templateId partId q).1.template_parts =
          st.template_parts ++ [⟨templateId, partId, q⟩]) := by
  unfold ProductTemplate.addPart
  rw [if_neg (by rw [ht]; simp), if_neg (by rw [hp]; simp)]
  constructor
  · by_cases hc : (st.template_parts.any
        (fun tp => tp.template_id == templateId && tp.part_id == partId)) = true
    · rw [if_pos hc]
    · rw [if_neg hc]
  · intro hnone
    rw [if_neg (by rw [hnone]; exact Bool.false_ne_true)]

theorem addPart_ignores_is_active_witness :
    ((⟨[⟨7, none, "Inactive Part", none, false⟩], [⟨3, "T2", none, 1, 0, 0, true⟩],
        []⟩ : PTState).templates.any (fun t => t.template_id == 3)) = true ∧
    ((⟨[⟨7, none, "Inactive Part", none, false⟩], [⟨3, "T2", none, 1, 0, 0, true⟩],
        []⟩ : PTState).parts.any (fun p => p.part_id == 7)) = true ∧
    (ProductTemplate.addPart ⟨[⟨7, none, "Inactive Part", none, false⟩],
        [⟨3, "T2", none, 1, 0, 0, true⟩], []⟩ 3 7 2).2 = Except.ok true :=
  ⟨by decide, by decide,
    (addPart_ignores_is_active ⟨[⟨7, none, "Inactive Part", none, false⟩],
      [⟨3, "T2", none, 1, 0, 0, true⟩], []⟩ 3 7 2 (by decide) (by decide)).1⟩

/- ### Generic map/find? helpers for the frame conditions (C8). -/

theorem find?_map_pred {α : Type} (p : α → Bool) (f : α → α) (l : List α)
    (hf : ∀ x, p (f x) = p x) : (l.map f).find? p = (l.find? p).map f := by
  induction l with
  | nil => rfl
  | cons x t ih =>
    by_cases hx : p x = true
    · rw [List.map_cons, List.find?_cons_of_pos _ (by rw [hf]; exact hx),
        List.find?_cons_of_pos _ hx]
      rfl
    · rw [List.map_cons, List.find?_cons_of_neg _ (by rw [hf]; exact hx),
        List.find?_cons_of_neg _ hx, ih]

theorem map_key_eq {α : Type} (key : α → Nat) (f : α → α) (l : List α)
    (hf : ∀ x, key (f x) = key x) : (l.map f).map key = l.map key := by
  rw [List.map_map]
  apply List.map_congr_left
  intro r _
  simp only [Function.comp_apply]
  exact hf r

theorem any_map_pred {α : Type} (p : α → Bool) (f : α → α) (l : List α)
    (hf : ∀ x, p (f x) = p x) : (l.map f).any p = l.any p := by
  rw [List.any_map]
  congr 1
  funext x
  simp only [Function.comp_apply]
  exact hf x

theorem color_setActive_keeps_pred (colorId : Nat) (b : Bool) (x : ColorRow) :
    ((if x.color_id == colorId then { x with is_active := b } else x).color_id ==
      colorId) = (x.color_id == colorId) := by
  by_cases hx : (x.color_id == colorId) = true
  · rw [if_pos hx]
  · rw [if_neg hx]

theorem color_setActive_keeps_id (colorId : Nat) (b : Bool) (x : ColorRow) :
    (if x.color_id == colorId then { x with is_active := b } else x).color_id =
      x.color_id := by
  by_cases hx : (x.color_id == colorId) = true
  · rw [if_pos hx]
  · rw [if_neg hx]

theorem color_deact_act (colorId : Nat) (x : ColorRow) :
    (if (if x.color_id == colorId then { x with is_active := false } else
          x).color_id == colorId
      then { (if x.color_id == colorId then { x with is_active := false } else x)
          with is_active := true }
      else (if x.color_id == colorId then { x with is_active := false } else x)) =
      (if x.color_id == colorId then { x with is_active := true } else x) := by
  by_cases hx : (x.color_id == colorId) = true
  · rw [if_pos hx,
      if_pos (show (({ x with is_active := false } : ColorRow).color_id == colorId) =
        true from hx),
      if_pos hx]
  · rw [if_neg hx, if_neg hx]

theorem part_setActive_keeps_pred (partId : Nat) (b : Bool) (x : PartRow) :
    ((if x.part_id == partId then { x with is_active := b } else x).part_id ==
      partId) = (x.part_id == partId) := by
  by_cases hx : (x.part_id == partId) = true
  · rw [if_pos hx]
  · rw [if_neg hx]

theorem part_setActive_keeps_id (partId : Nat) (b : Bool) (x : PartRow) :
    (if x.part_id == partId then { x with is_active := b } else x).part_id =
      x.part_id := by
  by_cases hx : (x.part_id == partId) = true
  · rw [if_pos hx]
  · rw [if_neg hx]

theorem part_deact_act (partId : Nat) (x : PartRow) :
    (if (if x.part_id == partId then { x with is_active := false } else
          x).part_id == partId
      then { (if x.part_id == partId then { x with is_active := false } else x)
          with is_active := true }
      else (if x.part_id == partId then { x with is_active := false } else x)) =
      (if x.part_id == partId then { x with is_active := true } else x) := by
  by_cases hx : (x.part_id == partId) = true
  · rw [if_pos hx,
      if_pos (show (({ x with is_active := false } : PartRow).part_id == partId) =
        true from hx),
      if_pos hx]
  · rw [if_neg hx, if_neg hx]

/-- C8: For every existing color id, `Color.deactivate` returns true,
sets is_active to 0 on exactly the matching record — every other field of
that record and every other record positionally unchanged — the record
stays retrievable through `getById`, and a subsequent `activate` sets
is_active back to 1 with the same frame; on a nonexistent id both return
false and change nothing.  No Color-module operation removes a row: every
mutator preserves the stored id sequence and `create` only appends (the
remaining module operations are reads).  The same holds for the Part
module. -/
theorem soft_delete_frame :
    (∀ (tbl : List ColorRow) (colorId : Nat),
      (∃ r ∈ tbl, r.color_id = colorId) →
      ∃ tbl', Color.deactivate tbl colorId = (tbl', true)
      ∧ tbl'.length = tbl.length
      ∧ (∀ i (h : i < tbl.length),
          tbl'[i]? = some (if tbl[i].color_id == colorId
            then { tbl[i] with is_active := false } else tbl[i]))
      ∧ (∃ r0, Color.getById tbl colorId = some r0 ∧
          Color.getById tbl' colorId = some { r0 with is_active := false })
      ∧ (∃ tbl'', Color.activate tbl' colorId = (tbl'', true) ∧
          ∀ i (h : i < tbl.length),
            tbl''[i]? = some (if tbl[i].color_id == colorId
              then { tbl[i] with is_active := true } else tbl[i])))
    ∧ (∀ (tbl : List ColorRow) (colorId : Nat),
        (∀ r ∈ tbl, ¬(r.color_id = colorId)) →
        Color.deactivate tbl colorId = (tbl, false) ∧
        Color.activate tbl colorId = (tbl, false))
    ∧ (∀ (tbl : List ColorRow) (colorId : Nat) (d : ColorData),
        (Color.update tbl colorId d).1.map (fun r => r.color_id) =
          tbl.map (fun r => r.color_id)
        ∧ (Color.deactivate tbl colorId).1.map (fun r => r.color_id) =
          tbl.map (fun r => r.color_id)
        ∧ (Color.activate tbl colorId).1.map (fun r => r.color_id) =
          tbl.map (fun r => r.color_id)
        ∧ ∀ r ∈ tbl, r ∈ (Color.create tbl d).1)
    ∧ (∀ (tbl : List PartRow) (partId : Nat),
      (∃ r ∈ tbl, r.part_id = partId) →
      ∃ tbl', Part.deactivate tbl partId = (tbl', true)
      ∧ tbl'.length = tbl.length
      ∧ (∀ i (h : i < tbl.length),
          tbl'[i]? = some (if tbl[i].part_id == partId
            then { tbl[i] with is_active := false } else tbl[i]))
      ∧ (∃ r0, Part.getById tbl partId = some r0 ∧
          Part.getById tbl' partId = some { r0 with is_active := false })
      ∧ (∃ tbl'', Part.activate tbl' partId = (tbl'', true) ∧
          ∀ i (h : i < tbl.length),
            tbl''[i]? = some (if tbl[i].part_id == partId
              then { tbl[i] with is_active := true } else tbl[i])))
    ∧ (∀ (tbl : List PartRow) (partId : Nat),
        (∀ r ∈ tbl, ¬(r.part_id = partId)) →
        Part.deactivate tbl partId = (tbl, false) ∧
        Part.activate tbl partId = (tbl, false))
    ∧ (∀ (tbl : List PartRow) (partId : Nat) (d : PartData),
        (Part.update tbl partId d).1.map (fun r => r.part_id) =
          tbl.map (fun r => r.part_id)
        ∧ (Part.deactivate tbl partId).1.map (fun r => r.part_id) =
          tbl.map (fun r => r.part_id)
        ∧ (Part.activate tbl partId).1.map (fun r => r.part_id) =
          tbl.map (fun r => r.part_id)
        ∧ ∀ r ∈ tbl, r ∈ (Part.create tbl d).1) := by
  refine ⟨?_, ?_, ?_, ?_, ?_, ?_⟩
  · intro tbl colorId ⟨r, hr, hn⟩
    have hb : (r.color_id == colorId) = true := beq_iff_eq.mpr hn
    have hany : (tbl.any fun r => r.color_id == colorId) = true :=
      List.any_eq_true.mpr ⟨r, hr, hb⟩
    unfold Color.deactivate
    rw [if_pos hany]
    refine ⟨_, rfl, List.length_map _ _, ?_, ?_, ?_⟩
    · intro i h
      rw [List.getElem?_map, List.getElem?_eq_getElem h]
      rfl
    · cases hf0 : tbl.find? (fun r => r.color_id == colorId) with
      | none =>
        rw [List.find?_eq_none] at hf0
        exact absurd hb (hf0 r hr)
      | some r0 =>
        refine ⟨r0, hf0, ?_⟩
        unfold Color.getById
        rw [find?_map_pred _ _ _
          (fun x => color_setActive_keeps_pred colorId false x), hf0]
        have hp0 := List.find?_some hf0
        simp only [Option.map_some']
        rw [if_pos hp0]
    · unfold Color.activate
      rw [any_map_pred _ _ _
        (fun x => color_setActive_keeps_pred colorId false x)]
      rw [if_pos hany]
      refine ⟨_, rfl, ?_⟩
      intro i h
      rw [List.map_map, List.getElem?_map, List.getElem?_eq_getElem h]
      simp only [Option.map_some', Option.some.injEq, Function.comp_apply]
      exact color_deact_act colorId (tbl[i])
  · intro tbl colorId hno
    have hany : (tbl.any fun r => r.color_id == colorId) = false := by
      rw [← Bool.not_eq_true, List.any_eq_true]
      rintro ⟨r, hr, hp⟩
      exact hno r hr (beq_iff_eq.mp hp)
    unfold Color.deactivate Color.activate
    rw [if_neg (by rw [hany]; exact Bool.false_ne_true),
      if_neg (by rw [hany]; exact Bool.false_ne_true)]
    exact ⟨rfl, rfl⟩
  · intro tbl colorId d
    refine ⟨?_, ?_, ?_, ?_⟩
    · unfold Color.update
      by_cases hany : (tbl.any fun r => r.color_id == colorId) = true
      · rw [if_pos hany]
        exact map_key_eq _ _ _ (by
          intro x
          by_cases hx : (x.color_id == colorId) = true
          · rw [if_pos hx]
          · rw [if_neg hx])
      · rw [if_neg hany]
    · unfold Color.deactivate
      by_cases hany : (tbl.any fun r => r.color_id == colorId) = true
      · rw [if_pos hany]
        exact map_key_eq _ _ _ (by
          intro x
          by_cases hx : (x.color_id == colorId) = true
          · rw [if_pos hx]
          · rw [if_neg hx])
      · rw [if_neg hany]
    · unfold Color.activate
      by_cases hany : (tbl.any fun r => r.color_id == colorId) = true
      · rw [if_pos hany]
        exact map_key_eq _ _ _ (by
          intro x
          by_cases hx : (x.color_id == colorId) = true
          · rw [if_pos hx]
          · rw [if_neg hx])
      · rw [if_neg hany]
    · intro r hr
      unfold Color.create
      by_cases hdup : (tbl.any fun r => r.color_name == d.color_name) = true
      · rw [if_pos hdup]
        exact hr
      · rw [if_neg hdup]
        exact List.mem_append_left _ hr
  · intro tbl partId ⟨r, hr, hn⟩
    have hb : (r.part_id == partId) = true := beq_iff_eq.mpr hn
    have hany : (tbl.any fun r => r.part_id == partId) = true :=
      List.any_eq_true.mpr ⟨r, hr, hb⟩
    unfold Part.deactivate
    rw [if_pos hany]
    refine ⟨_, rfl, List.length_map _ _, ?_, ?_, ?_⟩
    · intro i h
      rw [List.getElem?_map, List.getElem?_eq_getElem h]
      rfl
    · cases hf0 : tbl.find? (fun r => r.part_id == partId) with
      | none =>
        rw [List.find?_eq_none] at hf0
        exact absurd hb (hf0 r hr)
      | some r0 =>
        refine ⟨r0, hf0, ?_⟩
        unfold Part.getById
        rw [find?_map_pred _ _ _
          (fun x => part_setActive_keeps_pred partId false x), hf0]
        have hp0 := List.find?_some hf0
        simp only [Option.map_some']
        rw [if_pos hp0]
    · unfold Part.activate
      rw [any_map_pred _ _ _
        (fun x => part_setActive_keeps_pred partId false x)]
      rw [if_pos hany]
      refine ⟨_, rfl, ?_⟩
      intro i h
      rw [List.map_map, List.getElem?_map, List.getElem?_eq_getElem h]
      simp only [Option.map_some', Option.some.injEq, Function.comp_apply]
      exact part_deact_act partId (tbl[i])
  · intro tbl partId hno
    have hany : (tbl.any fun r => r.part_id == partId) = false := by
      rw [← Bool.not_eq_true, List.any_eq_true]
      rintro ⟨r, hr, hp⟩
      exact hno r hr (beq_iff_eq.mp hp)
    unfold Part.deactivate Part.activate
    rw [if_neg (by rw [hany]; exact Bool.false_ne_true),
      if_neg (by rw [hany]; exact Bool.false_ne_true)]
    exact ⟨rfl, rfl⟩
  · intro tbl partId d
    refine ⟨?_, ?_, ?_, ?_⟩
    · unfold Part.update
      by_cases hany : (tbl.any fun r => r.part_id == partId) = true
      · rw [if_pos hany]
        exact map_key_eq _ _ _ (by
          intro x
          by_cases hx : (x.part_id == partId) = true
          · rw [if_pos hx]
          · rw [if_neg hx])
      · rw [if_neg hany]
    · unfold Part.deactivate
      by_cases hany : (tbl.any fun r => r.part_id == partId) = true
      · rw [if_pos hany]
        exact map_key_eq _ _ _ (by
          intro x
          by_cases hx : (x.part_id == partId) = true
          · rw [if_pos hx]
          · rw [if_neg hx])
      · rw [if_neg hany]
    · unfold Part.activate
      by_cases hany : (tbl.any fun r => r.part_id == partId) = true
      · rw [if_pos hany]
        exact map_key_eq _ _ _ (by
          intro x
          by_cases hx : (x.part_id == partId) = true
          · rw [if_pos hx]
          · rw [if_neg hx])
      · rw [if_neg hany]
    · intro r hr
      unfold Part.create
      by_cases hdup : (tbl.any fun r =>
          r.part_name == d.part_name ||
            (r.part_code.isSome && r.part_code == d.part_code)) = true
      · rw [if_pos hdup]
        exact hr
      · rw [if_neg hdup]
        exact List.mem_append_left _ hr

theorem soft_delete_frame_witness :
    ((∃ r ∈ [(⟨1, "Red", "#f00", none, none, none, none, 0, 0, true⟩ : ColorRow)],
        r.color_id = 1) ∧
      ∃ tbl', Color.deactivate
          [⟨1, "Red", "#f00", none, none, none, none, 0, 0, true⟩] 1 = (tbl', true)
        ∧ tbl'.length = 1
        ∧ (∀ i (h : i < ([(⟨1, "Red", "#f00", none, none, none, none, 0, 0, true⟩ :
              ColorRow)]).length),
            tbl'[i]? = some (if ([(⟨1, "Red", "#f00", none, none, none, none, 0, 0,
                true⟩ : ColorRow)])[i].color_id == 1
              then { ([(⟨1, "Red", "#f00", none, none, none, none, 0, 0, true⟩ :
                ColorRow)])[i] with is_active := false }
              else ([(⟨1, "Red", "#f00", none, none, none, none, 0, 0, true⟩ :
                ColorRow)])[i]))
        ∧ (∃ r0, Color.getById
              [⟨1, "Red", "#f00", none, none, none, none, 0, 0, true⟩] 1 = some r0 ∧
            Color.getById tbl' 1 = some { r0 with is_active := false })
        ∧ (∃ tbl'', Color.activate tbl' 1 = (tbl'', true) ∧
            ∀ i (h : i < ([(⟨1, "Red", "#f00", none, none, none, none, 0, 0, true⟩ :
                ColorRow)]).length),
              tbl''[i]? = some (if ([(⟨1, "Red", "#f00", none, none, none, none, 0, 0,
                  true⟩ : ColorRow)])[i].color_id == 1
                then { ([(⟨1, "Red", "#f00", none, none, none, none, 0, 0, true⟩ :
                  ColorRow)])[i] with is_active := true }
                else ([(⟨1, "Red", "#f00", none, none, none, none, 0, 0, true⟩ :
                  ColorRow)])[i])))
    ∧ ((∀ r ∈ [(⟨2, some ("P2"), "Part Two", none, true⟩ : PartRow)],
        ¬(r.part_id = 9)) ∧
      Part.deactivate [⟨2, some ("P2"), "Part Two", none, true⟩] 9 =
        ([⟨2, some ("P2"), "Part Two", none, true⟩], false) ∧
      Part.activate [⟨2, some ("P2"), "Part Two", none, true⟩] 9 =
        ([⟨2, some ("P2"), "Part Two", none, true⟩], false)) :=
  ⟨⟨by decide,
    soft_delete_frame.1 [⟨1, "Red", "#f00", none, none, none, none, 0, 0, true⟩] 1
      (by decide)⟩,
   ⟨by decide,
    soft_delete_frame.2.2.2.2.1 [⟨2, some ("P2"), "Part Two", none, true⟩] 9
      (by decide)⟩⟩

/-- C9 counterexample: for a template with zero attached parts, the
`getById` join yields an empty parts list, but `getAll`'s GROUP_CONCAT of
`json_object` over the LEFT JOIN's all-NULL row yields one all-null entry,
so the two paths do not agree as multisets — refuting the claim that a
template with zero parts yields an empty parts array on both paths. -/
theorem template_zero_parts_diverge :
    ProductTemplate.getByIdParts ⟨[], [⟨1, "T", none, 1, 0, 0, true⟩], []⟩ 1 = []
    ∧ ProductTemplate.getAllParts ⟨[], [⟨1, "T", none, 1, 0, 0, true⟩], []⟩ 1 =
        [⟨none, none, none, none⟩]
    ∧ ¬((↑(ProductTemplate.getAllParts ⟨[], [⟨1, "T", none, 1, 0, 0, true⟩], []⟩ 1) :
          Multiset TPEntry) =
        ↑(ProductTemplate.getByIdParts ⟨[], [⟨1, "T", none, 1, 0, 0, true⟩], []⟩ 1)) := by
  exact ⟨by decide, by decide, by decide⟩

theorem tp_join_eq (st : PTState) (l : List TemplatePartRow)
    (h : ∀ tp ∈ l, (findPart st tp.part_id).isSome = true) :
    l.filterMap (fun tp => (findPart st tp.part_id).map (fun p =>
      (⟨some p.part_id, p.part_code, some p.part_name, some tp.quantity⟩ : TPEntry))) =
    l.map (fun tp =>
      match findPart st tp.part_id with
      | some p =>
        (⟨some p.part_id, p.part_code, some p.part_name, some tp.quantity⟩ : TPEntry)
      | none => ⟨none, none, none, some tp.quantity⟩) := by
  induction l with
  | nil => rfl
  | cons tp t ih =>
    have h1 := h tp (List.mem_cons_self tp t)
    cases hf : findPart st tp.part_id with
    | none => rw [hf] at h1; cases h1
    | some p =>
      rw [List.filterMap_cons, List.map_cons, hf]
      simp only [Option.map_some']
      rw [ih (fun x hx => h x (List.mem_cons_of_mem tp hx))]

/-- C9 as amended: for every template whose attached part rows all resolve
to a stored part (the foreign-key integrity the schema enforces), the
parts list `getAll` parses and the parts list `getById` joins agree as
multisets of (part_id, part_code, part_name, quantity) entries whenever at
least one part is attached; with zero attached parts `getAll` yields one
all-null entry while `getById` yields the empty list. -/
theorem template_parts_paths_agree (st : PTState) (templateId : Nat)
    (hfk : ∀ tp ∈ tpRows st templateId, (findPart st tp.part_id).isSome = true) :
    (tpRows st templateId = [] →
      ProductTemplate.getAllParts st templateId = [⟨none, none, none, none⟩] ∧
      ProductTemplate.getByIdParts st templateId = [])
    ∧ (tpRows st templateId ≠ [] →
      (↑(ProductTemplate.getAllParts st templateId) : Multiset TPEntry) =
        ↑(ProductTemplate.getByIdParts st templateId)) := by
  constructor
  · intro hnil
    unfold ProductTemplate.getAllParts ProductTemplate.getByIdParts
    rw [hnil]
    exact ⟨rfl, rfl⟩
  · intro hne
    have hrows : ProductTemplate.getAllParts st templateId =
        (tpRows st templateId).map (fun tp =>
          match findPart st tp.part_id with
          | some p =>
            (⟨some p.part_id, p.part_code, some p.part_name,
              some tp.quantity⟩ : TPEntry)
          | none => ⟨none, none, none, some tp.quantity⟩) := by
      unfold ProductTemplate.getAllParts
      cases hl : tpRows st templateId with
      | nil => exact absurd hl hne
      | cons a t => rfl
    rw [hrows, ← tp_join_eq st _ hfk]
    unfold ProductTemplate.getByIdParts
    rw [Multiset.coe_eq_coe]
    exact (sortBy_perm _ _).symm

theorem template_parts_paths_agree_witness :
    (∀ tp ∈ tpRows ⟨[⟨1, some ("P1"), "Part One", none, true⟩],
        [⟨1, "T", none, 1, 0, 0, true⟩], [⟨1, 1, 2⟩]⟩ 1,
      (findPart ⟨[⟨1, some ("P1"), "Part One", none, true⟩],
        [⟨1, "T", none, 1, 0, 0, true⟩], [⟨1, 1, 2⟩]⟩ tp.part_id).isSome = true) ∧
    tpRows ⟨[⟨1, some ("P1"), "Part One", none, true⟩],
      [⟨1, "T", none, 1, 0, 0, true⟩], [⟨1, 1, 2⟩]⟩ 1 ≠ [] ∧
    (↑(ProductTemplate.getAllParts ⟨[⟨1, some ("P1"), "Part One", none, true⟩],
        [⟨1, "T", none, 1, 0, 0, true⟩], [⟨1, 1, 2⟩]⟩ 1) : Multiset TPEntry) =
      ↑(ProductTemplate.getByIdParts ⟨[⟨1, some ("P1"), "Part One", none, true⟩],
        [⟨1, "T", none, 1, 0, 0, true⟩], [⟨1, 1, 2⟩]⟩ 1) :=
  ⟨by decide, by decide,
    (template_parts_paths_agree ⟨[⟨1, some ("P1"), "Part One", none, true⟩],
      [⟨1, "T", none, 1, 0, 0, true⟩], [⟨1, 1, 2⟩]⟩ 1 (by decide)).2 (by decide)⟩

/-- C10: `Color.getAll` and `Part.getAll` with includeInactive = false
return exactly the rows with is_active = 1, and with includeInactive =
true every row, in both cases sorted ascending by color_name /
part_name; a deactivated color or part therefore disappears from the
default listing and reappears under includeInactive = true. -/
theorem getAll_active_sorted :
    (∀ (tbl : List ColorRow) (r : ColorRow),
      (r ∈ Color.getAll tbl false ↔ r ∈ tbl ∧ r.is_active = true) ∧
      (r ∈ Color.getAll tbl true ↔ r ∈ tbl))
    ∧ (∀ (tbl : List ColorRow) (b : Bool),
        chainB (fun a c => strLe a.color_name c.color_name)
          (Color.getAll tbl b) = true)
    ∧ (∀ (tbl : List PartRow) (r : PartRow),
        (r ∈ Part.getAll tbl false ↔ r ∈ tbl ∧ r.is_active = true) ∧
        (r ∈ Part.getAll tbl true ↔ r ∈ tbl))
    ∧ (∀ (tbl : List PartRow) (b : Bool),
        chainB (fun a c => strLe a.part_name c.part_name)
          (Part.getAll tbl b) = true)
    ∧ (∀ (tbl : List ColorRow) (colorId : Nat) (r : ColorRow), r ∈ tbl →
        r.color_id = colorId →
        ({ r with is_active := false } ∉
            Color.getAll (Color.deactivate tbl colorId).1 false ∧
          { r with is_active := false } ∈
            Color.getAll (Color.deactivate tbl colorId).1 true))
    ∧ (∀ (tbl : List PartRow) (partId : Nat) (r : PartRow), r ∈ tbl →
        r.part_id = partId →
        ({ r with is_active := false } ∉
            Part.getAll (Part.deactivate tbl partId).1 false ∧
          { r with is_active := false } ∈
            Part.getAll (Part.deactivate tbl partId).1 true)) := by
  have hcolmemf : ∀ (tbl : List ColorRow) (r : ColorRow),
      r ∈ Color.getAll tbl false ↔ r ∈ tbl ∧ r.is_active = true := by
    intro tbl r
    unfold Color.getAll
    rw [mem_sortBy]
    exact List.mem_filter
  have hcolmemt : ∀ (tbl : List ColorRow) (r : ColorRow),
      r ∈ Color.getAll tbl true ↔ r ∈ tbl := by
    intro tbl r
    unfold Color.getAll
    rw [mem_sortBy]
    exact Iff.rfl
  have hpartmemf : ∀ (tbl : List PartRow) (r : PartRow),
      r ∈ Part.getAll tbl false ↔ r ∈ tbl ∧ r.is_active = true := by
    intro tbl r
    unfold Part.getAll
    rw [mem_sortBy]
    exact List.mem_filter
  have hpartmemt : ∀ (tbl : List PartRow) (r : PartRow),
      r ∈ Part.getAll tbl true ↔ r ∈ tbl := by
    intro tbl r
    unfold Part.getAll
    rw [mem_sortBy]
    exact Iff.rfl
  refine ⟨fun tbl r => ⟨hcolmemf tbl r, hcolmemt tbl r⟩, ?_,
    fun tbl r => ⟨hpartmemf tbl r, hpartmemt tbl r⟩, ?_, ?_, ?_⟩
  · intro tbl b
    unfold Color.getAll
    exact chainB_sortBy _ (fun (a c : ColorRow) => strLe_total a.color_name c.color_name) _
  · intro tbl b
    unfold Part.getAll
    exact chainB_sortBy _ (fun (a c : PartRow) => strLe_total a.part_name c.part_name) _
  · intro tbl colorId r hr hid
    have hb : (r.color_id == colorId) = true := beq_iff_eq.mpr hid
    have hany : (tbl.any fun x => x.color_id == colorId) = true :=
      List.any_eq_true.mpr ⟨r, hr, hb⟩
    have hd : (Color.deactivate tbl colorId).1 =
        tbl.map (fun x =>
          if x.color_id == colorId then { x with is_active := false } else x) := by
      unfold Color.deactivate
      rw [if_pos hany]
    constructor
    · intro hmem
      have := ((hcolmemf _ _).mp hmem).2
      simp at this
    · rw [hcolmemt, hd]
      exact List.mem_map.mpr ⟨r, hr, by rw [if_pos hb]⟩
  · intro tbl partId r hr hid
    have hb : (r.part_id == partId) = true := beq_iff_eq.mpr hid
    have hany : (tbl.any fun x => x.part_id == partId) = true :=
      List.any_eq_true.mpr ⟨r, hr, hb⟩
    have hd : (Part.deactivate tbl partId).1 =
        tbl.map (fun x =>
          if x.part_id == partId then { x with is_active := false } else x) := by
      unfold Part.deactivate
      rw [if_pos hany]
    constructor
    · intro hmem
      have := ((hpartmemf _ _).mp hmem).2
      simp at this
    · rw [hpartmemt, hd]
      exact List.mem_map.mpr ⟨r, hr, by rw [if_pos hb]⟩

theorem getAll_active_sorted_witness :
    ((⟨1, "Red", "#f00", none, none, none, none, 0, 0, true⟩ : ColorRow) ∈
        [(⟨1, "Red", "#f00", none, none, none, none, 0, 0, true⟩ : ColorRow)] ∧
      (⟨1, "Red", "#f00", none, none, none, none, 0, 0, true⟩ : ColorRow).color_id = 1)
    ∧ ({ (⟨1, "Red", "#f00", none, none, none, none, 0, 0, true⟩ : ColorRow) with
          is_active := false } ∉
        Color.getAll (Color.deactivate
          [⟨1, "Red", "#f00", none, none, none, none, 0, 0, true⟩] 1).1 false ∧
       { (⟨1, "Red", "#f00", none, none, none, none, 0, 0, true⟩ : ColorRow) with
          is_active := false } ∈
        Color.getAll (Color.deactivate
          [⟨1, "Red", "#f00", none, none, none, none, 0, 0, true⟩] 1).1 true) :=
  ⟨⟨by decide, by decide⟩,
    getAll_active_sorted.2.2.2.2.1
      [⟨1, "Red", "#f00", none, none, none, none, 0, 0, true⟩] 1
      ⟨1, "Red", "#f00", none, none, none, none, 0, 0, true⟩
      (by decide) (by decide)⟩

end ToT

